import Mathlib

/-!
Verification development for the blossom-client-sdk upload actions
(src/src/actions/upload.ts).  The source file contains two variants of
`uploadBlob`: a handler-based variant (lines 19-89, the one used by
`multiServerUpload`) in which a 402 preflight response triggers a payment
handler and a 403 triggers an auth handler, and an eager variant
(lines 203-271) which resolves an auth event before the preflight and
treats 401/403 as terminal.  Both are embedded below, together with the
`multiServerUpload` orchestrator (lines 103-172) with its closure helpers
`handleAuthRequest` and `handlePaymentRequest`.

External collaborators that are not part of the sources
(`fetchWithHandlers` from src/fetch.ts, `HTTPError.handleErrorResponse`
from src/error.ts, `mirrorBlob` from src/actions/mirror.ts, the helpers
from src/helpers.ts and src/auth.ts) are modelled from the spec at their
interface boundary; each such definition carries a doc comment saying so.
-/

namespace BlossomSpec

/-- A blob together with the metadata that the helper functions
`getBlobSha256`, `getBlobSize` and `getBlobType` derive from it.
The helpers themselves live in src/helpers.ts (not part of the sources)
and are specified as pure metadata extraction, so the model stores their
results directly on the blob. -/
structure Blob where
  sha256 : String
  size : Nat
  btype : Option String
deriving DecidableEq, Repr

/-- A signed nostr auth event (`SignedEvent` from src/types.ts). -/
structure SignedEvent where
  id : Nat
deriving DecidableEq, Repr

/-- A cashu payment token (`Token` from the cashu library). -/
structure Token where
  tid : Nat
deriving DecidableEq, Repr

/-- A parsed payment request (`PaymentRequest` from src/types.ts). -/
structure PaymentRequest where
  amount : Nat
deriving DecidableEq, Repr

/-- The descriptor a server returns for a stored blob. -/
structure BlobDescriptor where
  sha256 : String
  size : Nat
  url : String
deriving DecidableEq, Repr

/-- HTTP method of the requests uploadBlob performs. -/
inductive Method
  | head
  | put
deriving DecidableEq, Repr

/-- An HTTP request as assembled by the upload actions: method, the header
list in insertion order, whether the blob body is attached, and the abort
signal passed to fetch (modelled as an optional identifier). -/
structure Request where
  method : Method
  headers : List (String × String)
  hasBody : Bool
  signal : Option Nat
deriving DecidableEq, Repr

/-- An HTTP response: the status, the payment request carried in the
headers of a 402 response, and the blob descriptor carried as the JSON
body of a success response. -/
structure Response where
  status : Nat
  paymentReq : PaymentRequest
  body : BlobDescriptor
deriving DecidableEq, Repr

/-- The errors the upload actions can raise: `msg` embeds the argument of
a thrown `new Error(...)`, `http` embeds an `HTTPError` with its status. -/
inductive Err where
  | msg (s : String)
  | http (status : Nat)
deriving DecidableEq, Repr

instance {ε α : Type} [DecidableEq ε] [DecidableEq α] : DecidableEq (Except ε α) :=
  fun a b =>
    match a, b with
    | .ok x, .ok y =>
      if h : x = y then isTrue (by rw [h]) else isFalse (by simp [h])
    | .error x, .error y =>
      if h : x = y then isTrue (by rw [h]) else isFalse (by simp [h])
    | .ok _, .error _ => isFalse (fun hcon => Except.noConfusion hcon)
    | .error _, .ok _ => isFalse (fun hcon => Except.noConfusion hcon)

/-- src/helpers.ts getBlobSha256 (external, pure metadata extraction). -/
def getBlobSha256 (b : Blob) : String := b.sha256

/-- src/helpers.ts getBlobSize (external, pure metadata extraction). -/
def getBlobSize (b : Blob) : Nat := b.size

/-- src/helpers.ts getBlobType (external, pure metadata extraction). -/
def getBlobType (b : Blob) : Option String := b.btype

/-- Modelled from the spec: src/auth.ts encodeAuthorizationHeader is an
external pure serialization of a signed credential into a transport
header value. -/
def encodeAuthorizationHeader (a : SignedEvent) : String :=
  "Nostr " ++ toString a.id

/-- Modelled from the spec: getEncodedToken from the cashu library is an
external pure serialization of a payment token. -/
def getEncodedToken (t : Token) : String :=
  "cashu" ++ toString t.tid

/-- Whether a response status is in the success range (`Response.ok`). -/
def respOk (r : Response) : Bool := 200 ≤ r.status && r.status < 300

/-- Modelled from the spec: `HTTPError.handleErrorResponse` from
src/error.ts (not part of the sources) throws an `HTTPError` carrying the
status for any non-success response and does nothing otherwise. -/
def handleErrorResponse (r : Response) : Except Err Unit :=
  if respOk r then .ok () else .error (.http r.status)

/-- Events observed during one `uploadBlob` call: a network request
together with the status of its response, an invocation of the auth
callback, and an invocation of the payment callback. -/
inductive UEv
  | req (r : Request) (status : Nat)
  | authCb
  | payCb
deriving DecidableEq, Repr

/-- The options record of the handler-based `uploadBlob` (lines 11-16).
The callbacks may be stateful (state type `σ`) because
`multiServerUpload` passes its closure helpers here; they may also throw,
which the code propagates. -/
structure UploadOpts (σ : Type) where
  signal : Option Nat := none
  auth : Option SignedEvent := none
  onPayment : Option (σ → String → Blob → PaymentRequest → σ × Except Err Token) := none
  onAuth : Option (σ → String → Blob → σ × Except Err SignedEvent) := none

/-- The headers assembled before the preflight in the handler-based
variant (lines 27-32): hash, length, and the content type when known. -/
def uploadHeaders (blob : Blob) : List (String × String) :=
  [("X-SHA-256", getBlobSha256 blob), ("X-Content-Length", toString (getBlobSize blob))] ++
    (match getBlobType blob with
     | some t => [("X-Content-Type", t)]
     | none => [])

/-- The preflight HEAD request of the handler-based variant (lines 35-41). -/
def uploadHeadReq (blob : Blob) (signal : Option Nat) : Request :=
  { method := .head, headers := uploadHeaders blob, hasBody := false, signal := signal }

/-- The retried PUT issued by the 402 handler (lines 52-57): it carries
only the X-Cashu header. -/
def cashuPutReq (token : Token) (signal : Option Nat) : Request :=
  { method := .put, headers := [("X-Cashu", getEncodedToken token)],
    hasBody := true, signal := signal }

/-- The retried PUT issued by the 403 handler (lines 64-69): it carries
only the Authorization header. -/
def authPutReq (a : SignedEvent) (signal : Option Nat) : Request :=
  { method := .put, headers := [("Authorization", encodeAuthorizationHeader a)],
    hasBody := true, signal := signal }

/-- The unconditional final PUT of the handler-based variant
(lines 78-82): it carries no headers at all. -/
def freePutReq (signal : Option Nat) : Request :=
  { method := .put, headers := [], hasBody := true, signal := signal }

/-- Lines 74-88 of the handler-based variant: `handleErrorResponse` on
the check response, then the final header-less PUT, its own error check,
and the parsed descriptor of its body. -/
def commitFree {σ : Type} (net : Request → Response) (signal : Option Nat) (s : σ)
    (evs : List UEv) (check : Response) : σ × List UEv × Except Err BlobDescriptor :=
  match handleErrorResponse check with
  | .error e => (s, evs, .error e)
  | .ok _ =>
    let upRes := net (freePutReq signal)
    let evs2 := evs ++ [.req (freePutReq signal) upRes.status]
    match handleErrorResponse upRes with
    | .error e => (s, evs2, .error e)
    | .ok _ => (s, evs2, .ok upRes.body)

/-- The status dispatch of the handler-based `uploadBlob` given the
preflight response.  Modelled from the spec at one point:
`fetchWithHandlers` (src/fetch.ts, not part of the sources) runs the
handler registered for the response status, if any, and returns that
handler's response, otherwise the response itself; the call at
lines 35-72 registers a payment handler for 402 and an auth handler for
403 and nothing else. -/
def uploadBlobCore {σ : Type} (server : String) (net : Request → Response) (blob : Blob)
    (opts : UploadOpts σ) (s0 : σ) (evs0 : List UEv) (headRes : Response) :
    σ × List UEv × Except Err BlobDescriptor :=
  if headRes.status = 402 then
    match opts.onPayment with
    | none => (s0, evs0, .error (.msg "Missing payment handler"))
    | some f =>
      let out := f s0 server blob headRes.paymentReq
      let evs1 := evs0 ++ [.payCb]
      match out.2 with
      | .error e => (out.1, evs1, .error e)
      | .ok token =>
        let putRes := net (cashuPutReq token opts.signal)
        commitFree net opts.signal out.1
          (evs1 ++ [.req (cashuPutReq token opts.signal) putRes.status]) putRes
  else if headRes.status = 403 then
    match opts.auth with
    | some a =>
      let putRes := net (authPutReq a opts.signal)
      commitFree net opts.signal s0
        (evs0 ++ [.req (authPutReq a opts.signal) putRes.status]) putRes
    | none =>
      match opts.onAuth with
      | none => (s0, evs0, .error (.msg "Missing auth handler"))
      | some f =>
        let out := f s0 server blob
        let evs1 := evs0 ++ [.authCb]
        match out.2 with
        | .error e => (out.1, evs1, .error e)
        | .ok a =>
          let putRes := net (authPutReq a opts.signal)
          commitFree net opts.signal out.1
            (evs1 ++ [.req (authPutReq a opts.signal) putRes.status]) putRes
  else
    commitFree net opts.signal s0 evs0 headRes

/-- Shallow embedding of the handler-based `uploadBlob`
(src/src/actions/upload.ts lines 19-89): assemble the metadata headers,
issue the preflight HEAD through `fetchWithHandlers` with the 402/403
handlers, check the resulting response for errors, then perform the final
header-less PUT and return the parsed descriptor. -/
def uploadBlob {σ : Type} (server : String) (net : Request → Response) (blob : Blob)
    (opts : UploadOpts σ) (s0 : σ) : σ × List UEv × Except Err BlobDescriptor :=
  let headReq := uploadHeadReq blob opts.signal
  let headRes := net headReq
  uploadBlobCore server net blob opts s0 [.req headReq headRes.status] headRes

/-- The options record of the eager `uploadBlob` variant (lines 180-200):
the callbacks additionally receive the sha256 and are plain caller
functions. -/
structure EagerOpts where
  signal : Option Nat := none
  auth : Option SignedEvent := none
  onPayment : Option (String → String → Blob → PaymentRequest → Token) := none
  onAuth : Option (String → String → Blob → SignedEvent) := none

/-- Line 214 of the eager variant: the auth event is the override
`opts.auth` when present, otherwise the result of calling `opts.onAuth`
when configured; the second component records whether the callback was
invoked. -/
def eagerAuth (opts : EagerOpts) (server : String) (sha256 : String) (blob : Blob) :
    Option SignedEvent × List UEv :=
  match opts.auth with
  | some a => (some a, [])
  | none =>
    match opts.onAuth with
    | some f => (some (f server sha256 blob), [.authCb])
    | none => (none, [])

/-- Lines 211-215 of the eager variant: the headers shared by the
preflight and the commit, in insertion order (hash first, then the
Authorization header when an auth event was resolved). -/
def eagerBaseHeaders (auth : Option SignedEvent) (sha256 : String) : List (String × String) :=
  [("X-SHA-256", sha256)] ++
    (match auth with
     | some a => [("Authorization", encodeAuthorizationHeader a)]
     | none => [])

/-- Lines 218-223 of the eager variant: the preflight-only headers add
the content length and, when known, the content type. -/
def eagerCheckHeaders (blob : Blob) (base : List (String × String)) : List (String × String) :=
  base ++ [("X-Content-Length", toString (getBlobSize blob))] ++
    (match getBlobType blob with
     | some t => [("X-Content-Type", t)]
     | none => [])

/-- The preflight HEAD request of the eager variant (lines 226-230). -/
def eagerHeadReq (opts : EagerOpts) (server : String) (blob : Blob) : Request :=
  { method := .head,
    headers := eagerCheckHeaders blob
      (eagerBaseHeaders (eagerAuth opts server (getBlobSha256 blob) blob).1 (getBlobSha256 blob)),
    hasBody := false, signal := opts.signal }

/-- Lines 259-270 of the eager variant: the commit PUT with the
accumulated headers, its error check, and the parsed descriptor. -/
def eagerPut (net : Request → Response) (signal : Option Nat)
    (headers : List (String × String)) (evs : List UEv) :
    List UEv × Except Err BlobDescriptor :=
  let putReq : Request := { method := .put, headers := headers, hasBody := true, signal := signal }
  let putRes := net putReq
  let evs2 := evs ++ [.req putReq putRes.status]
  match handleErrorResponse putRes with
  | .error e => (evs2, .error e)
  | .ok _ => (evs2, .ok putRes.body)

/-- The status switch of the eager variant (lines 233-256): 401 throws
(Missing auth handler without an auth event, Unable to authenticate with
one), 403 throws Unauthorized, 402 mints a token and appends the X-Cashu
header, and any other status falls through to the commit. -/
def eagerCore (server : String) (net : Request → Response) (blob : Blob) (opts : EagerOpts)
    (auth : Option SignedEvent) (base : List (String × String)) (evs0 : List UEv)
    (headRes : Response) : List UEv × Except Err BlobDescriptor :=
  if headRes.status = 401 then
    match auth with
    | none => (evs0, .error (.msg "Missing auth handler"))
    | some _ => (evs0, .error (.msg "Unable to authenticate"))
  else if headRes.status = 402 then
    match opts.onPayment with
    | none => (evs0, .error (.msg "Missing payment handler"))
    | some f =>
      let token := f server (getBlobSha256 blob) blob headRes.paymentReq
      eagerPut net opts.signal (base ++ [("X-Cashu", getEncodedToken token)]) (evs0 ++ [.payCb])
  else if headRes.status = 403 then
    (evs0, .error (.msg "Unauthorized"))
  else
    eagerPut net opts.signal base evs0

/-- Shallow embedding of the eager `uploadBlob` variant
(src/src/actions/upload.ts lines 203-271): resolve the auth event before
the preflight, attach it to the headers, issue the preflight HEAD, run
the status switch, then commit with the accumulated headers. -/
def uploadBlobEager (server : String) (net : Request → Response) (blob : Blob)
    (opts : EagerOpts) : List UEv × Except Err BlobDescriptor :=
  let sha256 := getBlobSha256 blob
  let a := eagerAuth opts server sha256 blob
  let base := eagerBaseHeaders a.1 sha256
  let headReq := eagerHeadReq opts server blob
  let headRes := net headReq
  eagerCore server net blob opts a.1 base (a.2 ++ [.req headReq headRes.status]) headRes

/-- Events observed during one `multiServerUpload` run: a mirror attempt
(with the descriptor used as source and the signal passed to it), a
network request issued by an `uploadBlob` call for a server, an
invocation of the caller-supplied onAuth, an invocation of the
caller-supplied onPayment (with the minted token), and the onUpload and
onError callbacks. -/
inductive Ev
  | mirrorCall (server : String) (src : BlobDescriptor) (signal : Option Nat)
  | netReq (server : String) (r : Request) (status : Nat)
  | userAuth (server : String) (a : SignedEvent)
  | userPay (server : String) (pr : PaymentRequest) (t : Token)
  | cbUpload (server : String)
  | cbError (server : String) (e : Err)
deriving DecidableEq, Repr

/-- The options record of `multiServerUpload` (lines 91-94).  The
caller-supplied resolvers are modelled as pure functions; the
notification callbacks onUpload and onError are modelled by the flags
saying whether they are configured, their invocations being recorded in
the event trace. -/
structure MSOpts where
  signal : Option Nat := none
  auth : Option SignedEvent := none
  onPayment : Option (String → Blob → PaymentRequest → Token) := none
  onAuth : Option (String → Blob → SignedEvent) := none
  hasOnUpload : Bool := true
  hasOnError : Bool := true

/-- The closure state of one `multiServerUpload` run: the `authEvents`
cache (line 112) and the event trace. -/
structure MSAux where
  authEvents : List SignedEvent
  evs : List Ev
deriving DecidableEq, Repr

/-- The scan of lines 115-117: the first cached auth event accepted by
the scope-match predicate.  The predicate embeds `doseAuthMatchUpload`
from src/auth.ts, which the spec specifies as an externally supplied
total scope-match predicate, so it is a parameter of the model. -/
def findMatchingAuth (scopeMatch : SignedEvent → String → Blob → Bool) (server : String)
    (blob : Blob) : List SignedEvent → Option SignedEvent
  | [] => none
  | a :: rest =>
    if scopeMatch a server blob then some a else findMatchingAuth scopeMatch server blob rest

/-- Shallow embedding of `handleAuthRequest` (lines 113-125): return the
first cached auth event matching the server, otherwise invoke the
caller-supplied onAuth, append its result to the cache and return it,
otherwise throw Missing onAuth handler. -/
def handleAuthRequest (scopeMatch : SignedEvent → String → Blob → Bool) (opts : MSOpts)
    (blob : Blob) (aux : MSAux) (server : String) : MSAux × Except Err SignedEvent :=
  match findMatchingAuth scopeMatch server blob aux.authEvents with
  | some a => (aux, .ok a)
  | none =>
    match opts.onAuth with
    | some f =>
      let a := f server blob
      ({ authEvents := aux.authEvents ++ [a], evs := aux.evs ++ [.userAuth server a] }, .ok a)
    | none => (aux, .error (.msg "Missing onAuth handler"))

/-- Shallow embedding of `handlePaymentRequest` (lines 128-132): forward
every call to the caller-supplied onPayment, keeping no token state, or
throw when none is configured. -/
def handlePaymentRequest (opts : MSOpts) (blob : Blob) (aux : MSAux) (server : String)
    (request : PaymentRequest) : MSAux × Except Err Token :=
  match opts.onPayment with
  | none => (aux, .error (.msg "Missing payment handler"))
  | some f =>
    let t := f server blob request
    ({ aux with evs := aux.evs ++ [.userPay server request t] }, .ok t)

/-- Map.set on the results association list (line 161): overwrite the
entry for the server when present (keys are unique since the list is
only ever extended through this function), otherwise append it. -/
def setResult : List (String × BlobDescriptor) → String → BlobDescriptor →
    List (String × BlobDescriptor)
  | [], server, d => [(server, d)]
  | p :: rest, server, d =>
    if p.1 == server then (server, d) :: rest else p :: setResult rest server d

/-- Map.get on the results association list. -/
def lookupResult : List (String × BlobDescriptor) → String → Option BlobDescriptor
  | [], _ => none
  | p :: rest, server => if p.1 == server then some p.2 else lookupResult rest server

/-- The environment of one `multiServerUpload` run: the network behavior
of each server on the upload path, and the outcome of a mirror attempt.
Modelled from the spec: `mirrorBlob` (src/actions/mirror.ts, not part of
the sources) performs a server-side copy from a known descriptor and
either returns a descriptor or fails; it is abstracted here by its
outcome and raises no challenges of its own. -/
structure MSEnv where
  net : String → Request → Response
  mirror : String → BlobDescriptor → Except Err BlobDescriptor

/-- The loop state of one `multiServerUpload` run: `initialUpload`
(line 108), the results mapping (line 109) and the closure state. -/
structure MSState where
  initialUpload : Option BlobDescriptor
  results : List (String × BlobDescriptor)
  aux : MSAux
deriving Repr

/-- Network events of an `uploadBlob` call, lifted to run events. -/
def uevToEv (server : String) : UEv → Option Ev
  | .req r status => some (.netReq server r status)
  | _ => none

/-- The options record `multiServerUpload` passes to `uploadBlob` at
lines 151-154: the closure helpers as callbacks and nothing else — in
particular no signal and no auth override. -/
def msUploadOpts (scopeMatch : SignedEvent → String → Blob → Bool) (opts : MSOpts)
    (blob : Blob) : UploadOpts MSAux :=
  { signal := none,
    auth := none,
    onAuth := some (fun aux server _b => handleAuthRequest scopeMatch opts blob aux server),
    onPayment := some (fun aux server _b request =>
      handlePaymentRequest opts blob aux server request) }

/-- Lines 161-164: record the descriptor for the server and fire the
onUpload callback when configured. -/
def recordSuccess (opts : MSOpts) (server : String) (m : BlobDescriptor) (st : MSState) :
    MSState :=
  let aux :=
    if opts.hasOnUpload then { st.aux with evs := st.aux.evs ++ [.cbUpload server] }
    else st.aux
  { st with results := setResult st.results server m, aux := aux }

/-- The upload phase of one loop iteration (lines 150-164): call
`uploadBlob` with the closure helpers (and no signal), set
`initialUpload` when still unset, record the result, and on failure fire
the onError callback when configured (every error thrown in the model is
an Error instance). -/
def msUploadPhase (scopeMatch : SignedEvent → String → Blob → Bool) (env : MSEnv)
    (opts : MSOpts) (blob : Blob) (st : MSState) (server : String) : MSState :=
  let out := uploadBlob server (env.net server) blob (msUploadOpts scopeMatch opts blob) st.aux
  let aux3 := { out.1 with evs := out.1.evs ++ out.2.1.filterMap (uevToEv server) }
  match out.2.2 with
  | .ok m =>
    let st2 : MSState :=
      { st with
        aux := aux3,
        initialUpload :=
          match st.initialUpload with
          | none => some m
          | some d => some d }
    recordSuccess opts server m st2
  | .error e =>
    let aux4 :=
      if opts.hasOnError then { aux3 with evs := aux3.evs ++ [.cbError server e] }
      else aux3
    { st with aux := aux4 }

/-- One iteration of the server loop (lines 135-169): when a first
upload already succeeded, attempt the mirror first, swallowing its error;
fall back to the upload phase when no mirror descriptor was obtained. -/
def msStep (scopeMatch : SignedEvent → String → Blob → Bool) (env : MSEnv) (opts : MSOpts)
    (blob : Blob) (st : MSState) (server : String) : MSState :=
  match st.initialUpload with
  | some d =>
    let st1 : MSState :=
      { st with aux := { st.aux with evs := st.aux.evs ++ [.mirrorCall server d opts.signal] } }
    match env.mirror server d with
    | .ok m => recordSuccess opts server m st1
    | .error _ => msUploadPhase scopeMatch env opts blob st1 server
  | none => msUploadPhase scopeMatch env opts blob st server

/-- The initial loop state (lines 108-112): no first upload, empty
results, and the auth cache seeded with the override auth event when
given. -/
def msInit (opts : MSOpts) : MSState :=
  { initialUpload := none, results := [],
    aux := { authEvents := match opts.auth with | some a => [a] | none => [], evs := [] } }

/-- Shallow embedding of `multiServerUpload`
(src/src/actions/upload.ts lines 103-172): fold the per-server step over
the server list. -/
def multiServerUpload (scopeMatch : SignedEvent → String → Blob → Bool) (env : MSEnv)
    (servers : List String) (blob : Blob) (opts : MSOpts) : MSState :=
  servers.foldl (msStep scopeMatch env opts blob) (msInit opts)

/-! ### Event predicates and counters -/

/-- Whether a call event is an invocation of the auth callback. -/
def isAuthCbEv : UEv → Bool
  | .authCb => true
  | _ => false

/-- Whether a call event is an invocation of the payment callback. -/
def isPayCbEv : UEv → Bool
  | .payCb => true
  | _ => false

/-- Whether a call event is a network request. -/
def isReqEv : UEv → Bool
  | .req _ _ => true
  | _ => false

/-- Whether a call event is a preflight HEAD answered with 402. -/
def isHead402U : UEv → Bool
  | .req r c => (r.method == Method.head) && (c == 402)
  | _ => false

/-- Number of auth-callback invocations in a call trace. -/
def countAuthCb (evs : List UEv) : Nat := (evs.filter isAuthCbEv).length

/-- Number of network requests in a call trace. -/
def countReq (evs : List UEv) : Nat := (evs.filter isReqEv).length

/-- Number of 402-answered preflights in a call trace. -/
def countHead402U (evs : List UEv) : Nat := (evs.filter isHead402U).length

/-- Whether a run event is an invocation of the caller-supplied payment
resolver. -/
def isUserPayEv : Ev → Bool
  | .userPay _ _ _ => true
  | _ => false

/-- Whether a run event is a network request of an uploadBlob call whose
request was the preflight HEAD and whose response status was 402. -/
def isHead402Ev : Ev → Bool
  | .netReq _ r c => (r.method == Method.head) && (c == 402)
  | _ => false

/-- Whether a run event is a resolver invocation (caller-supplied onAuth
or onPayment). -/
def isResolverEv : Ev → Bool
  | .userAuth _ _ => true
  | .userPay _ _ _ => true
  | _ => false

/-- Whether a run event is an onError invocation for the given server. -/
def isCbErrorForEv (server : String) : Ev → Bool
  | .cbError s _ => s == server
  | _ => false

/-- Whether a run event is an onError invocation for some server. -/
def isCbErrorEv : Ev → Bool
  | .cbError _ _ => true
  | _ => false

/-- Number of run events satisfying a predicate. -/
def countEv (p : Ev → Bool) (evs : List Ev) : Nat := (evs.filter p).length

/-- Number of onError invocations for a server in a run trace. -/
def errCnt (st : MSState) (s : String) : Nat := countEv (isCbErrorForEv s) st.aux.evs

/-- Whether a server holds an entry in the results mapping. -/
def hasRes (st : MSState) (s : String) : Bool := (lookupResult st.results s).isSome

/-! ### Concrete fixtures used by witnesses and counterexamples -/

/-- A concrete blob. -/
def wBlob : Blob := { sha256 := "h1", size := 10, btype := some "text/plain" }

/-- A concrete descriptor as returned by server A. -/
def wDescA : BlobDescriptor := { sha256 := "h1", size := 10, url := "https://a" }

/-- A concrete descriptor as returned by a mirror of server B. -/
def wDescB : BlobDescriptor := { sha256 := "h1", size := 10, url := "https://b" }

/-- A response with the given status, a fixed payment request and the
fixed descriptor body. -/
def respOf (st : Nat) : Response := { status := st, paymentReq := { amount := 5 }, body := wDescA }

/-- A server that accepts everything. -/
def net200 : Request → Response := fun _ => respOf 200

/-- A server that returns 401 to any request without an Authorization
header and 200 to any request carrying one. -/
def net401 : Request → Response := fun r =>
  if r.headers.any (fun p => p.1 == "Authorization") then respOf 200 else respOf 401

/-- A server that returns 403 to the preflight and 200 to any PUT. -/
def net403 : Request → Response := fun r =>
  match r.method with
  | .head => respOf 403
  | .put => respOf 200

/-- A server that returns 402 to the preflight and 200 to any PUT. -/
def net402 : Request → Response := fun r =>
  match r.method with
  | .head => respOf 402
  | .put => respOf 200

/-- Concrete stateless callbacks for the handler-based uploadBlob. -/
def pOpts : UploadOpts Unit :=
  { onAuth := some (fun u _ _ => (u, .ok { id := 9 })),
    onPayment := some (fun u _ _ _ => (u, .ok { tid := 3 })) }

/-- Concrete callbacks for the eager uploadBlob. -/
def eOpts : EagerOpts := { onAuth := some (fun _ _ _ => { id := 3 }) }

/-- A scope-match predicate accepting everything. -/
def mTrue : SignedEvent → String → Blob → Bool := fun _ _ _ => true

/-- A scope-match predicate accepting exactly the events with positive id. -/
def mPos : SignedEvent → String → Blob → Bool := fun a _ _ => decide (1 ≤ a.id)

/-- A concrete multi-server options record carrying a signal and both
resolvers; the payment resolver mints a distinct token per server. -/
def msOptsW : MSOpts :=
  { signal := some 7,
    onPayment := some (fun s _ _ => if s == "https://a" then { tid := 1 } else { tid := 2 }),
    onAuth := some (fun _ _ => { id := 4 }) }

/-- An environment where every server answers 402 to the preflight and
mirrors always fail. -/
def msEnv402 : MSEnv :=
  { net := fun _ => net402, mirror := fun _ _ => .error (.msg "no mirror") }

/-- An environment where server B rejects uploads with 500 while every
other server accepts, and where mirroring to B succeeds. -/
def msEnvDup : MSEnv :=
  { net := fun s _r => if s == "https://b" then respOf 500 else respOf 200,
    mirror := fun s _d => if s == "https://b" then .ok wDescB else .error (.msg "no") }

/-- An environment where every upload succeeds and every mirror fails. -/
def msEnvUp : MSEnv :=
  { net := fun _ => net200, mirror := fun _ _ => .error (.msg "no") }

/-- A concrete closure state holding three cached auth events. -/
def auxW : MSAux := { authEvents := [{ id := 0 }, { id := 1 }, { id := 2 }], evs := [] }

/-- A concrete loop state in which a first upload already succeeded. -/
def stW : MSState :=
  { initialUpload := some wDescA, results := [], aux := { authEvents := [], evs := [] } }

/-! ### Helper lemmas -/

theorem findMatchingAuth_append_first (scopeMatch : SignedEvent → String → Blob → Bool)
    (server : String) (blob : Blob) (l₁ : List SignedEvent) (a : SignedEvent)
    (l₂ : List SignedEvent) (h₁ : ∀ b ∈ l₁, scopeMatch b server blob = false)
    (h₂ : scopeMatch a server blob = true) :
    findMatchingAuth scopeMatch server blob (l₁ ++ a :: l₂) = some a := by
  induction l₁ with
  | nil => simp [findMatchingAuth, h₂]
  | cons b rest ih =>
    have hb : scopeMatch b server blob = false := h₁ b (by simp)
    simp only [List.cons_append, findMatchingAuth, hb]
    exact ih (fun x hx => h₁ x (by simp [hx]))

theorem commitFree_mem {σ : Type} (net : Request → Response) (sig : Option Nat) (s : σ)
    (evs : List UEv) (check : Response) (e : UEv)
    (h : e ∈ (commitFree net sig s evs check).2.1) :
    e ∈ evs ∨ ∃ c, e = .req (freePutReq sig) c := by
  simp only [commitFree] at h
  split at h
  · exact Or.inl h
  · split at h <;>
      · rcases List.mem_append.1 h with h1 | h2
        · exact Or.inl h1
        · simp only [List.mem_singleton] at h2
          exact Or.inr ⟨_, h2⟩

theorem commitFree_countAuthCb {σ : Type} (net : Request → Response) (sig : Option Nat)
    (s : σ) (evs : List UEv) (check : Response) :
    countAuthCb (commitFree net sig s evs check).2.1 = countAuthCb evs := by
  simp only [commitFree]
  split
  · rfl
  · split <;> simp [countAuthCb, List.filter_append, isAuthCbEv]

theorem uploadBlob_mem {σ : Type} (server : String) (net : Request → Response) (blob : Blob)
    (opts : UploadOpts σ) (s0 : σ) (e : UEv)
    (h : e ∈ (uploadBlob server net blob opts s0).2.1) :
    e = .req (uploadHeadReq blob opts.signal) ((net (uploadHeadReq blob opts.signal)).status) ∨
    e = .authCb ∨ e = .payCb ∨
    (∃ t c, e = .req (cashuPutReq t opts.signal) c) ∨
    (∃ a c, e = .req (authPutReq a opts.signal) c) ∨
    (∃ c, e = .req (freePutReq opts.signal) c) := by
  simp only [uploadBlob, uploadBlobCore] at h
  split at h
  · split at h
    · simp only [List.mem_singleton] at h
      exact Or.inl h
    · split at h
      · rcases List.mem_append.1 h with h1 | h2
        · simp only [List.mem_singleton] at h1
          exact Or.inl h1
        · simp only [List.mem_singleton] at h2
          exact Or.inr (Or.inr (Or.inl h2))
      · rcases commitFree_mem _ _ _ _ _ _ h with h1 | h2
        · rcases List.mem_append.1 h1 with h3 | h4
          · rcases List.mem_append.1 h3 with h5 | h6
            · simp only [List.mem_singleton] at h5
              exact Or.inl h5
            · simp only [List.mem_singleton] at h6
              exact Or.inr (Or.inr (Or.inl h6))
          · simp only [List.mem_singleton] at h4
            exact Or.inr (Or.inr (Or.inr (Or.inl ⟨_, _, h4⟩)))
        · exact Or.inr (Or.inr (Or.inr (Or.inr (Or.inr h2))))
  · split at h
    · split at h
      · rcases commitFree_mem _ _ _ _ _ _ h with h1 | h2
        · rcases List.mem_append.1 h1 with h3 | h4
          · simp only [List.mem_singleton] at h3
            exact Or.inl h3
          · simp only [List.mem_singleton] at h4
            exact Or.inr (Or.inr (Or.inr (Or.inr (Or.inl ⟨_, _, h4⟩))))
        · exact Or.inr (Or.inr (Or.inr (Or.inr (Or.inr h2))))
      · split at h
        · simp only [List.mem_singleton] at h
          exact Or.inl h
        · split at h
          · rcases List.mem_append.1 h with h1 | h2
            · simp only [List.mem_singleton] at h1
              exact Or.inl h1
            · simp only [List.mem_singleton] at h2
              exact Or.inr (Or.inl h2)
          · rcases commitFree_mem _ _ _ _ _ _ h with h1 | h2
            · rcases List.mem_append.1 h1 with h3 | h4
              · rcases List.mem_append.1 h3 with h5 | h6
                · simp only [List.mem_singleton] at h5
                  exact Or.inl h5
                · simp only [List.mem_singleton] at h6
                  exact Or.inr (Or.inl h6)
              · simp only [List.mem_singleton] at h4
                exact Or.inr (Or.inr (Or.inr (Or.inr (Or.inl ⟨_, _, h4⟩))))
            · exact Or.inr (Or.inr (Or.inr (Or.inr (Or.inr h2))))
    · rcases commitFree_mem _ _ _ _ _ _ h with h1 | h2
      · simp only [List.mem_singleton] at h1
        exact Or.inl h1
      · exact Or.inr (Or.inr (Or.inr (Or.inr (Or.inr h2))))

theorem uploadBlob_authCb_only_403 {σ : Type} (server : String) (net : Request → Response)
    (blob : Blob) (opts : UploadOpts σ) (s0 : σ)
    (h : (net (uploadHeadReq blob opts.signal)).status ≠ 403) :
    countAuthCb (uploadBlob server net blob opts s0).2.1 = 0 := by
  simp only [uploadBlob, uploadBlobCore]
  split
  · split
    · simp [countAuthCb, isAuthCbEv]
    · split
      · simp [countAuthCb, List.filter_append, isAuthCbEv]
      · rw [commitFree_countAuthCb]
        simp [countAuthCb, List.filter_append, isAuthCbEv]
  · rw [commitFree_countAuthCb]
    simp [countAuthCb, isAuthCbEv]

theorem eagerPut_evs (net : Request → Response) (sig : Option Nat)
    (headers : List (String × String)) (evs : List UEv) :
    ∃ t, (eagerPut net sig headers evs).1 = evs ++ t := by
  simp only [eagerPut]
  split <;> exact ⟨_, rfl⟩

theorem eagerCore_evs (server : String) (net : Request → Response) (blob : Blob)
    (opts : EagerOpts) (auth : Option SignedEvent) (base : List (String × String))
    (evs0 : List UEv) (headRes : Response) :
    ∃ t, (eagerCore server net blob opts auth base evs0 headRes).1 = evs0 ++ t := by
  simp only [eagerCore]
  split
  · split <;> exact ⟨[], by simp⟩
  · split
    · split
      · exact ⟨[], by simp⟩
      · rcases eagerPut_evs net opts.signal _ (evs0 ++ [.payCb]) with ⟨t, ht⟩
        exact ⟨[.payCb] ++ t, by rw [ht, List.append_assoc]⟩
    · split
      · exact ⟨[], by simp⟩
      · exact eagerPut_evs net opts.signal base evs0

/-! ### Claim C5 -/

/-- C5: within one multiServerUpload run, a credential request for a
server returns the first previously acquired credential in acquisition
order whose scope-match predicate accepts it, without invoking the
acquisition callback; if no cached credential matches, the acquisition
callback is invoked and its result is appended to the cache and
returned; if no acquisition callback is configured, the request fails
with the missing-auth-handler error. -/
theorem C5_credential_cache (scopeMatch : SignedEvent → String → Blob → Bool)
    (opts : MSOpts) (blob : Blob) (aux : MSAux) (server : String) :
    (∀ (l₁ : List SignedEvent) (a : SignedEvent) (l₂ : List SignedEvent),
      aux.authEvents = l₁ ++ a :: l₂ →
      (∀ b ∈ l₁, scopeMatch b server blob = false) →
      scopeMatch a server blob = true →
      handleAuthRequest scopeMatch opts blob aux server = (aux, .ok a)) ∧
    (∀ f, findMatchingAuth scopeMatch server blob aux.authEvents = none →
      opts.onAuth = some f →
      handleAuthRequest scopeMatch opts blob aux server =
        ({ authEvents := aux.authEvents ++ [f server blob],
           evs := aux.evs ++ [.userAuth server (f server blob)] }, .ok (f server blob))) ∧
    (findMatchingAuth scopeMatch server blob aux.authEvents = none →
      opts.onAuth = none →
      handleAuthRequest scopeMatch opts blob aux server =
        (aux, .error (.msg "Missing onAuth handler"))) := by
  refine ⟨?_, ?_, ?_⟩
  · intro l₁ a l₂ hsplit h₁ h₂
    have hfind : findMatchingAuth scopeMatch server blob aux.authEvents = some a := by
      rw [hsplit]
      exact findMatchingAuth_append_first scopeMatch server blob l₁ a l₂ h₁ h₂
    simp [handleAuthRequest, hfind]
  · intro f hfind hsome
    simp [handleAuthRequest, hfind, hsome]
  · intro hfind hnone
    simp [handleAuthRequest, hfind, hnone]

/-- C5 witness: with the cache `[id 0, id 1, id 2]` and the predicate
accepting positive ids, resolving returns the cached event with id 1 —
the first match in acquisition order — without touching the cache. -/
theorem C5_credential_cache_witness :
    handleAuthRequest mPos msOptsW wBlob auxW "https://b" = (auxW, .ok { id := 1 }) :=
  (C5_credential_cache mPos msOptsW wBlob auxW "https://b").1
    [{ id := 0 }] { id := 1 } [{ id := 2 }] rfl (by decide) (by decide)

/-! ### Claim C1 -/

/-- C1 counterexample: against a server whose preflight returns 401 and
which would accept any request carrying an Authorization header, the
handler-based uploadBlob invokes the credential resolver zero times (not
exactly once), issues no retried request (one request in total, not
two), and fails with HTTPError 401 — refuting the claimed
resolve-once-and-retry-once behavior on 401. -/
theorem C1_counterexample :
    countAuthCb (uploadBlob "https://a" net401 wBlob pOpts ()).2.1 = 0 ∧
    countReq (uploadBlob "https://a" net401 wBlob pOpts ()).2.1 = 1 ∧
    (uploadBlob "https://a" net401 wBlob pOpts ()).2.2 = .error (.http 401) ∧
    ¬(countAuthCb (uploadBlob "https://a" net401 wBlob pOpts ()).2.1 = 1 ∧
      countReq (uploadBlob "https://a" net401 wBlob pOpts ()).2.1 = 2) := by
  decide

/-- C1 (amended): neither uploadBlob variant resolves a credential in
response to a 401 or retries after one.  The handler-based variant
treats any 401 preflight as a terminal HTTPError with zero resolver
invocations and no further request; the eager variant treats a 401
preflight as terminal with no further request, throwing Missing auth
handler when no auth event was resolved and Unable to authenticate when
one was, so the resolver is never invoked a second time. -/
theorem C1_no_retry_after_401 :
    (∀ (σ : Type) (server : String) (net : Request → Response) (blob : Blob)
        (opts : UploadOpts σ) (s0 : σ),
      (net (uploadHeadReq blob opts.signal)).status = 401 →
      uploadBlob server net blob opts s0 =
        (s0, [.req (uploadHeadReq blob opts.signal) 401], .error (.http 401))) ∧
    (∀ (server : String) (net : Request → Response) (blob : Blob) (opts : EagerOpts),
      (net (eagerHeadReq opts server blob)).status = 401 →
      uploadBlobEager server net blob opts =
        ((eagerAuth opts server (getBlobSha256 blob) blob).2 ++
            [.req (eagerHeadReq opts server blob) 401],
          .error (.msg (match (eagerAuth opts server (getBlobSha256 blob) blob).1 with
            | none => "Missing auth handler"
            | some _ => "Unable to authenticate")))) := by
  constructor
  · intro σ server net blob opts s0 h
    simp [uploadBlob, uploadBlobCore, h, commitFree, handleErrorResponse, respOk]
  · intro server net blob opts h
    simp only [uploadBlobEager, eagerCore, h]
    cases hval : (eagerAuth opts server (getBlobSha256 blob) blob).1 with
    | none => simp [hval]
    | some a => simp [hval]

/-- C1 witness: the amended theorem applied to a concrete 401 server for
both variants. -/
theorem C1_no_retry_after_401_witness :
    uploadBlob "https://a" net401 wBlob pOpts () =
      ((), [.req (uploadHeadReq wBlob pOpts.signal) 401], .error (.http 401)) ∧
    uploadBlobEager "https://a" net401 wBlob { } =
      ((eagerAuth { } "https://a" (getBlobSha256 wBlob) wBlob).2 ++
          [.req (eagerHeadReq { } "https://a" wBlob) 401],
        .error (.msg (match (eagerAuth { } "https://a" (getBlobSha256 wBlob) wBlob).1 with
          | none => "Missing auth handler"
          | some _ => "Unable to authenticate"))) :=
  ⟨C1_no_retry_after_401.1 Unit "https://a" net401 wBlob pOpts () (by decide),
   C1_no_retry_after_401.2 "https://a" net401 wBlob { } (by decide)⟩

/-! ### Claim C2 -/

/-- C2 counterexample: against a server whose preflight returns 403 and
which accepts the retried PUT, the handler-based uploadBlob invokes the
credential resolver once, issues two further requests, and succeeds —
refuting the claim that a 403 preflight fails terminally with
Unauthorized without any resolver invocation and without any retried
request. -/
theorem C2_counterexample :
    (uploadBlob "https://a" net403 wBlob pOpts ()).2.2 = .ok wDescA ∧
    countAuthCb (uploadBlob "https://a" net403 wBlob pOpts ()).2.1 = 1 ∧
    countReq (uploadBlob "https://a" net403 wBlob pOpts ()).2.1 = 3 ∧
    ¬((uploadBlob "https://a" net403 wBlob pOpts ()).2.2 = .error (.msg "Unauthorized") ∧
      countAuthCb (uploadBlob "https://a" net403 wBlob pOpts ()).2.1 = 0 ∧
      countReq (uploadBlob "https://a" net403 wBlob pOpts ()).2.1 = 1) := by
  decide

/-- C2 (amended): only the eager variant treats a 403 preflight as a
terminal Unauthorized failure with no further request; the handler-based
variant instead resolves a credential for a 403 (invoking the resolver
exactly once when no override is supplied) and issues one retried PUT
carrying the Authorization header before the usual commit sequence. -/
theorem C2_forbidden_semantics :
    (∀ (server : String) (net : Request → Response) (blob : Blob) (opts : EagerOpts),
      (net (eagerHeadReq opts server blob)).status = 403 →
      uploadBlobEager server net blob opts =
        ((eagerAuth opts server (getBlobSha256 blob) blob).2 ++
            [.req (eagerHeadReq opts server blob) 403],
          .error (.msg "Unauthorized"))) ∧
    (∀ (σ : Type) (server : String) (net : Request → Response) (blob : Blob)
        (opts : UploadOpts σ) (s0 : σ)
        (f : σ → String → Blob → σ × Except Err SignedEvent),
      (net (uploadHeadReq blob opts.signal)).status = 403 →
      opts.auth = none → opts.onAuth = some f →
      uploadBlob server net blob opts s0 =
        (match (f s0 server blob).2 with
         | .error e =>
           ((f s0 server blob).1,
             [.req (uploadHeadReq blob opts.signal) 403, .authCb], .error e)
         | .ok a =>
           commitFree net opts.signal (f s0 server blob).1
             [.req (uploadHeadReq blob opts.signal) 403, .authCb,
               .req (authPutReq a opts.signal) ((net (authPutReq a opts.signal)).status)]
             (net (authPutReq a opts.signal)))) := by
  constructor
  · intro server net blob opts h
    simp [uploadBlobEager, eagerCore, h]
  · intro σ server net blob opts s0 f h hauth honAuth
    simp only [uploadBlob, uploadBlobCore, h, hauth, honAuth]
    cases hval : (f s0 server blob).2 with
    | error e => simp [hval]
    | ok a => simp [hval]

/-- C2 witness: the amended theorem applied to a concrete 403 server for
both variants. -/
theorem C2_forbidden_semantics_witness :
    uploadBlobEager "https://a" net403 wBlob eOpts =
      ((eagerAuth eOpts "https://a" (getBlobSha256 wBlob) wBlob).2 ++
          [.req (eagerHeadReq eOpts "https://a" wBlob) 403],
        .error (.msg "Unauthorized")) ∧
    uploadBlob "https://a" net403 wBlob pOpts () =
      (match ((fun (u : Unit) (_ : String) (_ : Blob) =>
          (u, (Except.ok { id := 9 } : Except Err SignedEvent))) () "https://a" wBlob).2 with
       | .error e =>
         ((), [.req (uploadHeadReq wBlob pOpts.signal) 403, .authCb], .error e)
       | .ok a =>
         commitFree net403 pOpts.signal ()
           [.req (uploadHeadReq wBlob pOpts.signal) 403, .authCb,
             .req (authPutReq a pOpts.signal) ((net403 (authPutReq a pOpts.signal)).status)]
           (net403 (authPutReq a pOpts.signal))) :=
  ⟨C2_forbidden_semantics.1 "https://a" net403 wBlob eOpts (by decide),
   C2_forbidden_semantics.2 Unit "https://a" net403 wBlob pOpts ()
     (fun u _ _ => (u, .ok { id := 9 })) (by decide) rfl rfl⟩

/-! ### Claim C7 -/

/-- C7 counterexample: in a plain successful run of the handler-based
uploadBlob the preflight HEAD carries the X-SHA-256 header but the
commit PUT carries no headers at all — refuting the claim that the
commit carries the same header set as the preflight with the content
hash always present. -/
theorem C7_counterexample :
    (uploadBlob "https://a" net200 wBlob pOpts ()).2.1 =
      [.req (uploadHeadReq wBlob none) 200, .req (freePutReq none) 200] ∧
    (uploadHeadReq wBlob none).headers.any (fun p => p.1 == "X-SHA-256") = true ∧
    (freePutReq none).headers = [] := by
  decide

/-- C7 (amended): in the handler-based uploadBlob only the preflight
HEAD carries the metadata header set (hash, length, type when known);
every PUT the call issues carries either no headers at all (the final
commit) or exactly one challenge header (X-Cashu after a 402,
Authorization after a 403). -/
theorem C7_commit_header_set (σ : Type) (server : String) (net : Request → Response)
    (blob : Blob) (opts : UploadOpts σ) (s0 : σ) (r : Request) (c : Nat)
    (h : UEv.req r c ∈ (uploadBlob server net blob opts s0).2.1) :
    (r.method = .head → r.headers = uploadHeaders blob) ∧
    (r.method = .put → r.headers = [] ∨ (∃ v, r.headers = [("X-Cashu", v)]) ∨
      (∃ v, r.headers = [("Authorization", v)])) := by
  rcases uploadBlob_mem server net blob opts s0 _ h with
    h1 | h1 | h1 | ⟨t, c2, h1⟩ | ⟨a, c2, h1⟩ | ⟨c2, h1⟩
  · rw [UEv.req.injEq] at h1
    rw [h1.1]
    exact ⟨fun _ => rfl, fun hput => by simp [uploadHeadReq] at hput⟩
  · exact absurd h1 (by simp)
  · exact absurd h1 (by simp)
  · rw [UEv.req.injEq] at h1
    rw [h1.1]
    exact ⟨fun hh => by simp [cashuPutReq] at hh, fun _ => Or.inr (Or.inl ⟨_, rfl⟩)⟩
  · rw [UEv.req.injEq] at h1
    rw [h1.1]
    exact ⟨fun hh => by simp [authPutReq] at hh, fun _ => Or.inr (Or.inr ⟨_, rfl⟩)⟩
  · rw [UEv.req.injEq] at h1
    rw [h1.1]
    exact ⟨fun hh => by simp [freePutReq] at hh, fun _ => Or.inl rfl⟩

/-- C7 witness: the amended theorem applied to the commit PUT of a
concrete successful run. -/
theorem C7_commit_header_set_witness :
    ((freePutReq none).method = .head → (freePutReq none).headers = uploadHeaders wBlob) ∧
    ((freePutReq none).method = .put →
      (freePutReq none).headers = [] ∨ (∃ v, (freePutReq none).headers = [("X-Cashu", v)]) ∨
        (∃ v, (freePutReq none).headers = [("Authorization", v)])) :=
  C7_commit_header_set Unit "https://a" net200 wBlob pOpts () (freePutReq none) 200 (by decide)

/-! ### Claim C8 -/

/-- C8 counterexample: with an auth callback configured and a server
that never returns 401, the eager uploadBlob still invokes the
credential resolver, and does so as its very first action, before any
request is issued — refuting the claim that uploadBlob never prompts for
a credential before the preflight response demands one. -/
theorem C8_counterexample :
    countAuthCb (uploadBlobEager "https://a" net200 wBlob eOpts).1 = 1 ∧
    (uploadBlobEager "https://a" net200 wBlob eOpts).1.head? = some UEv.authCb ∧
    ((uploadBlobEager "https://a" net200 wBlob eOpts).1.all
      (fun e => match e with | .req _ c => c != 401 | _ => true)) = true := by
  decide

/-- C8 (amended): credential resolution is not 401-triggered in either
variant: the eager variant invokes the resolver before the preflight
(first event of the call) whenever one is configured and no override
auth is given, and the handler-based variant invokes the resolver only
when the preflight status is 403. -/
theorem C8_lazy_auth_timing :
    (∀ (server : String) (net : Request → Response) (blob : Blob) (opts : EagerOpts)
        (f : String → String → Blob → SignedEvent),
      opts.auth = none → opts.onAuth = some f →
      (uploadBlobEager server net blob opts).1.head? = some UEv.authCb) ∧
    (∀ (σ : Type) (server : String) (net : Request → Response) (blob : Blob)
        (opts : UploadOpts σ) (s0 : σ),
      1 ≤ countAuthCb (uploadBlob server net blob opts s0).2.1 →
      (net (uploadHeadReq blob opts.signal)).status = 403) := by
  constructor
  · intro server net blob opts f hauth honAuth
    have ha : eagerAuth opts server (getBlobSha256 blob) blob =
        (some (f server (getBlobSha256 blob) blob), [.authCb]) := by
      simp [eagerAuth, hauth, honAuth]
    rcases eagerCore_evs server net blob opts
        (eagerAuth opts server (getBlobSha256 blob) blob).1
        (eagerBaseHeaders (eagerAuth opts server (getBlobSha256 blob) blob).1
          (getBlobSha256 blob))
        ((eagerAuth opts server (getBlobSha256 blob) blob).2 ++
          [.req (eagerHeadReq opts server blob)
            ((net (eagerHeadReq opts server blob)).status)])
        (net (eagerHeadReq opts server blob)) with ⟨t, ht⟩
    show (uploadBlobEager server net blob opts).1.head? = some UEv.authCb
    simp only [uploadBlobEager]
    rw [ht, ha]
    simp
  · intro σ server net blob opts s0 hcnt
    by_cases h403 : (net (uploadHeadReq blob opts.signal)).status = 403
    · exact h403
    · rw [uploadBlob_authCb_only_403 server net blob opts s0 h403] at hcnt
      exact absurd hcnt (by simp)

/-- C8 witness: the amended theorem applied to concrete runs — the eager
call against an always-200 server begins with the resolver invocation,
and a handler-based call with at least one resolver invocation had a 403
preflight. -/
theorem C8_lazy_auth_timing_witness :
    (uploadBlobEager "https://a" net200 wBlob eOpts).1.head? = some UEv.authCb ∧
    (net403 (uploadHeadReq wBlob pOpts.signal)).status = 403 :=
  ⟨C8_lazy_auth_timing.1 "https://a" net200 wBlob eOpts (fun _ _ _ => { id := 3 }) rfl rfl,
   C8_lazy_auth_timing.2 Unit "https://a" net403 wBlob pOpts () (by decide)⟩

/-! ### Orchestrator helper lemmas -/

theorem commitFree_fst {σ : Type} (net : Request → Response) (sig : Option Nat) (s : σ)
    (evs : List UEv) (check : Response) : (commitFree net sig s evs check).1 = s := by
  simp only [commitFree]
  split
  · rfl
  · split <;> rfl

theorem countEv_append (p : Ev → Bool) (l1 l2 : List Ev) :
    countEv p (l1 ++ l2) = countEv p l1 + countEv p l2 := by
  simp [countEv, List.filter_append]

theorem countEv_zero (p : Ev → Bool) (l : List Ev) (h : ∀ e ∈ l, p e = false) :
    countEv p l = 0 := by
  induction l with
  | nil => rfl
  | cons e rest ih =>
    have he : p e = false := h e (List.mem_cons_self e rest)
    have ih2 := ih (fun x hx => h x (List.mem_cons_of_mem e hx))
    simpa [countEv, List.filter_cons, he] using ih2

theorem lookupResult_setResult_self (results : List (String × BlobDescriptor)) (s : String)
    (d : BlobDescriptor) : lookupResult (setResult results s d) s = some d := by
  induction results with
  | nil => simp [setResult, lookupResult]
  | cons p rest ih =>
    by_cases hp : p.1 == s
    · simp [setResult, hp, lookupResult]
    · simp [setResult, hp, lookupResult, ih]

theorem lookupResult_setResult_other (results : List (String × BlobDescriptor))
    (s t : String) (d : BlobDescriptor) (h : t ≠ s) :
    lookupResult (setResult results s d) t = lookupResult results t := by
  have hst : (s == t) = false := beq_eq_false_iff_ne.2 (Ne.symm h)
  induction results with
  | nil => simp [setResult, lookupResult, hst]
  | cons p rest ih =>
    by_cases hp : p.1 == s
    · have hps : p.1 = s := by simpa using hp
      simp [setResult, hp, lookupResult, hps, hst]
    · by_cases hpt : p.1 == t <;> simp [setResult, hp, lookupResult, hpt, ih]

theorem handleAuthRequest_evs (scopeMatch : SignedEvent → String → Blob → Bool)
    (opts : MSOpts) (blob : Blob) (aux : MSAux) (server : String) :
    (handleAuthRequest scopeMatch opts blob aux server).1.evs = aux.evs ∨
    ∃ a, (handleAuthRequest scopeMatch opts blob aux server).1.evs =
      aux.evs ++ [Ev.userAuth server a] := by
  simp only [handleAuthRequest]
  split
  · exact Or.inl rfl
  · split
    · exact Or.inr ⟨_, rfl⟩
    · exact Or.inl rfl

theorem handlePaymentRequest_none (opts : MSOpts) (blob : Blob) (aux : MSAux)
    (server : String) (pr : PaymentRequest) (h : opts.onPayment = none) :
    handlePaymentRequest opts blob aux server pr =
      (aux, .error (.msg "Missing payment handler")) := by
  simp [handlePaymentRequest, h]

theorem handlePaymentRequest_some (opts : MSOpts) (blob : Blob) (aux : MSAux)
    (server : String) (pr : PaymentRequest) (f : String → Blob → PaymentRequest → Token)
    (h : opts.onPayment = some f) :
    handlePaymentRequest opts blob aux server pr =
      ({ aux with evs := aux.evs ++ [.userPay server pr (f server blob pr)] },
        .ok (f server blob pr)) := by
  simp [handlePaymentRequest, h]

theorem msUpload_aux_cases (scopeMatch : SignedEvent → String → Blob → Bool) (opts : MSOpts)
    (blob : Blob) (server : String) (net : Request → Response) (aux : MSAux) :
    (uploadBlob server net blob (msUploadOpts scopeMatch opts blob) aux).1 = aux ∨
    (uploadBlob server net blob (msUploadOpts scopeMatch opts blob) aux).1 =
      (handleAuthRequest scopeMatch opts blob aux server).1 ∨
    (uploadBlob server net blob (msUploadOpts scopeMatch opts blob) aux).1 =
      (handlePaymentRequest opts blob aux server
        ((net (uploadHeadReq blob none)).paymentReq)).1 := by
  simp only [uploadBlob, uploadBlobCore, msUploadOpts]
  split
  · split
    · exact Or.inr (Or.inr rfl)
    · rw [commitFree_fst]
      exact Or.inr (Or.inr rfl)
  · split
    · split
      · exact Or.inr (Or.inl rfl)
      · rw [commitFree_fst]
        exact Or.inr (Or.inl rfl)
    · rw [commitFree_fst]
      exact Or.inl rfl

theorem msUpload_aux_evs (scopeMatch : SignedEvent → String → Blob → Bool) (opts : MSOpts)
    (blob : Blob) (server : String) (net : Request → Response) (aux : MSAux) :
    ∃ Δ, (uploadBlob server net blob (msUploadOpts scopeMatch opts blob) aux).1.evs =
      aux.evs ++ Δ ∧ ∀ e ∈ Δ, isResolverEv e = true := by
  rcases msUpload_aux_cases scopeMatch opts blob server net aux with h | h | h
  · exact ⟨[], by simp [h], by simp⟩
  · rcases handleAuthRequest_evs scopeMatch opts blob aux server with h2 | ⟨a, h2⟩
    · exact ⟨[], by simp [h, h2], by simp⟩
    · refine ⟨[Ev.userAuth server a], by simp [h, h2], ?_⟩
      intro e he
      simp only [List.mem_singleton] at he
      simp [he, isResolverEv]
  · cases hop : opts.onPayment with
    | none =>
      rw [handlePaymentRequest_none opts blob aux server _ hop] at h
      exact ⟨[], by simp [h], by simp⟩
    | some f =>
      rw [handlePaymentRequest_some opts blob aux server _ f hop] at h
      refine ⟨[Ev.userPay server ((net (uploadHeadReq blob none)).paymentReq)
        (f server blob ((net (uploadHeadReq blob none)).paymentReq))], by simp [h], ?_⟩
      intro e he
      simp only [List.mem_singleton] at he
      simp [he, isResolverEv]

theorem uploadBlob_req_signal {σ : Type} (server : String) (net : Request → Response)
    (blob : Blob) (o : UploadOpts σ) (s0 : σ) (r : Request) (c : Nat)
    (h : UEv.req r c ∈ (uploadBlob server net blob o s0).2.1) :
    r.signal = o.signal := by
  rcases uploadBlob_mem server net blob o s0 _ h with
    h1 | h1 | h1 | ⟨t, c2, h1⟩ | ⟨a, c2, h1⟩ | ⟨c2, h1⟩
  · rw [UEv.req.injEq] at h1
    rw [h1.1]
    rfl
  · exact absurd h1 (by simp)
  · exact absurd h1 (by simp)
  · rw [UEv.req.injEq] at h1
    rw [h1.1]
    rfl
  · rw [UEv.req.injEq] at h1
    rw [h1.1]
    rfl
  · rw [UEv.req.injEq] at h1
    rw [h1.1]
    rfl

theorem mem_filterMap_uevToEv (server : String) (uevs : List UEv) (e : Ev)
    (he : e ∈ uevs.filterMap (uevToEv server)) :
    ∃ r c, e = Ev.netReq server r c ∧ UEv.req r c ∈ uevs := by
  rcases List.mem_filterMap.1 he with ⟨u, hu, hmap⟩
  cases u with
  | req r c =>
    refine ⟨r, c, ?_, hu⟩
    simp only [uevToEv, Option.some.injEq] at hmap
    exact hmap.symm
  | authCb => simp [uevToEv] at hmap
  | payCb => simp [uevToEv] at hmap

theorem msUpload_net_class (scopeMatch : SignedEvent → String → Blob → Bool) (opts : MSOpts)
    (blob : Blob) (server : String) (net : Request → Response) (aux : MSAux) :
    ∀ e ∈ ((uploadBlob server net blob (msUploadOpts scopeMatch opts blob) aux).2.1).filterMap
        (uevToEv server),
      ∃ r c, e = Ev.netReq server r c ∧ r.signal = none := by
  intro e he
  rcases mem_filterMap_uevToEv server _ e he with ⟨r, c, hre, hmem⟩
  refine ⟨r, c, hre, ?_⟩
  have hs := uploadBlob_req_signal server net blob (msUploadOpts scopeMatch opts blob)
    aux r c hmem
  simpa [msUploadOpts] using hs

theorem recordSuccess_evs (opts : MSOpts) (server : String) (m : BlobDescriptor)
    (st : MSState) :
    (recordSuccess opts server m st).aux.evs =
      st.aux.evs ++ (if opts.hasOnUpload = true then [Ev.cbUpload server] else []) := by
  simp only [recordSuccess]
  split <;> simp [*]

theorem recordSuccess_results (opts : MSOpts) (server : String) (m : BlobDescriptor)
    (st : MSState) :
    (recordSuccess opts server m st).results = setResult st.results server m := rfl

theorem recordSuccess_initialUpload (opts : MSOpts) (server : String) (m : BlobDescriptor)
    (st : MSState) :
    (recordSuccess opts server m st).initialUpload = st.initialUpload := rfl

theorem msUploadPhase_ok (scopeMatch : SignedEvent → String → Blob → Bool) (env : MSEnv)
    (opts : MSOpts) (blob : Blob) (st : MSState) (server : String) (m : BlobDescriptor)
    (h : (uploadBlob server (env.net server) blob (msUploadOpts scopeMatch opts blob)
      st.aux).2.2 = .ok m) :
    msUploadPhase scopeMatch env opts blob st server =
      recordSuccess opts server m
        { st with
          aux := { (uploadBlob server (env.net server) blob
              (msUploadOpts scopeMatch opts blob) st.aux).1 with
            evs := (uploadBlob server (env.net server) blob
                (msUploadOpts scopeMatch opts blob) st.aux).1.evs ++
              ((uploadBlob server (env.net server) blob
                (msUploadOpts scopeMatch opts blob) st.aux).2.1).filterMap (uevToEv server) },
          initialUpload := match st.initialUpload with
            | none => some m
            | some d => some d } := by
  simp only [msUploadPhase, h]

theorem msUploadPhase_err (scopeMatch : SignedEvent → String → Blob → Bool) (env : MSEnv)
    (opts : MSOpts) (blob : Blob) (st : MSState) (server : String) (e : Err)
    (h : (uploadBlob server (env.net server) blob (msUploadOpts scopeMatch opts blob)
      st.aux).2.2 = .error e) :
    msUploadPhase scopeMatch env opts blob st server =
      { st with aux :=
          if opts.hasOnError = true then
            { { (uploadBlob server (env.net server) blob
                (msUploadOpts scopeMatch opts blob) st.aux).1 with
              evs := (uploadBlob server (env.net server) blob
                  (msUploadOpts scopeMatch opts blob) st.aux).1.evs ++
                ((uploadBlob server (env.net server) blob
                  (msUploadOpts scopeMatch opts blob) st.aux).2.1).filterMap
                    (uevToEv server) } with
              evs := ((uploadBlob server (env.net server) blob
                  (msUploadOpts scopeMatch opts blob) st.aux).1.evs ++
                ((uploadBlob server (env.net server) blob
                  (msUploadOpts scopeMatch opts blob) st.aux).2.1).filterMap
                    (uevToEv server)) ++ [Ev.cbError server e] }
          else
            { (uploadBlob server (env.net server) blob
                (msUploadOpts scopeMatch opts blob) st.aux).1 with
              evs := (uploadBlob server (env.net server) blob
                  (msUploadOpts scopeMatch opts blob) st.aux).1.evs ++
                ((uploadBlob server (env.net server) blob
                  (msUploadOpts scopeMatch opts blob) st.aux).2.1).filterMap
                    (uevToEv server) } } := by
  simp only [msUploadPhase, h]

theorem msStep_none (scopeMatch : SignedEvent → String → Blob → Bool) (env : MSEnv)
    (opts : MSOpts) (blob : Blob) (st : MSState) (server : String)
    (h : st.initialUpload = none) :
    msStep scopeMatch env opts blob st server =
      msUploadPhase scopeMatch env opts blob st server := by
  simp only [msStep, h]

theorem msStep_mirror_ok (scopeMatch : SignedEvent → String → Blob → Bool) (env : MSEnv)
    (opts : MSOpts) (blob : Blob) (st : MSState) (server : String) (d m : BlobDescriptor)
    (h : st.initialUpload = some d) (hm : env.mirror server d = .ok m) :
    msStep scopeMatch env opts blob st server =
      recordSuccess opts server m
        { st with aux := { st.aux with
          evs := st.aux.evs ++ [Ev.mirrorCall server d opts.signal] } } := by
  simp only [msStep, h, hm]

theorem msStep_mirror_err (scopeMatch : SignedEvent → String → Blob → Bool) (env : MSEnv)
    (opts : MSOpts) (blob : Blob) (st : MSState) (server : String) (d : BlobDescriptor)
    (e : Err) (h : st.initialUpload = some d) (hm : env.mirror server d = .error e) :
    msStep scopeMatch env opts blob st server =
      msUploadPhase scopeMatch env opts blob
        { st with aux := { st.aux with
          evs := st.aux.evs ++ [Ev.mirrorCall server d opts.signal] } } server := by
  simp only [msStep, h, hm]

theorem msUploadPhase_evs_class (scopeMatch : SignedEvent → String → Blob → Bool)
    (env : MSEnv) (opts : MSOpts) (blob : Blob) (st : MSState) (server : String) :
    ∃ Δ, (msUploadPhase scopeMatch env opts blob st server).aux.evs = st.aux.evs ++ Δ ∧
      ∀ e ∈ Δ, isResolverEv e = true ∨
        (∃ r c, e = Ev.netReq server r c ∧ r.signal = none) ∨
        e = Ev.cbUpload server ∨ ∃ er, e = Ev.cbError server er := by
  rcases msUpload_aux_evs scopeMatch opts blob server (env.net server) st.aux with ⟨Δu, hu, hcu⟩
  have hnet := msUpload_net_class scopeMatch opts blob server (env.net server) st.aux
  cases hres : (uploadBlob server (env.net server) blob (msUploadOpts scopeMatch opts blob)
      st.aux).2.2 with
  | ok m =>
    rw [msUploadPhase_ok scopeMatch env opts blob st server m hres, recordSuccess_evs]
    refine ⟨Δu ++ (((uploadBlob server (env.net server) blob
      (msUploadOpts scopeMatch opts blob) st.aux).2.1).filterMap (uevToEv server) ++
        (if opts.hasOnUpload = true then [Ev.cbUpload server] else [])), ?_, ?_⟩
    · show ({ (uploadBlob server (env.net server) blob (msUploadOpts scopeMatch opts blob)
          st.aux).1 with
        evs := (uploadBlob server (env.net server) blob (msUploadOpts scopeMatch opts blob)
            st.aux).1.evs ++
          ((uploadBlob server (env.net server) blob (msUploadOpts scopeMatch opts blob)
            st.aux).2.1).filterMap (uevToEv server) } : MSAux).evs ++ _ = _
      rw [hu]
      simp [List.append_assoc]
    · intro e he
      rcases List.mem_append.1 he with h1 | h2
      · exact Or.inl (hcu e h1)
      · rcases List.mem_append.1 h2 with h3 | h4
        · exact Or.inr (Or.inl (hnet e h3))
        · by_cases hou : opts.hasOnUpload = true
          · rw [if_pos hou] at h4
            simp only [List.mem_singleton] at h4
            exact Or.inr (Or.inr (Or.inl h4))
          · rw [if_neg hou] at h4
            exact absurd h4 (List.not_mem_nil e)
  | error er =>
    rw [msUploadPhase_err scopeMatch env opts blob st server er hres]
    by_cases hoe : opts.hasOnError = true
    · rw [if_pos hoe]
      refine ⟨Δu ++ (((uploadBlob server (env.net server) blob
        (msUploadOpts scopeMatch opts blob) st.aux).2.1).filterMap (uevToEv server) ++
          [Ev.cbError server er]), ?_, ?_⟩
      · show ((uploadBlob server (env.net server) blob (msUploadOpts scopeMatch opts blob)
            st.aux).1.evs ++
          ((uploadBlob server (env.net server) blob (msUploadOpts scopeMatch opts blob)
            st.aux).2.1).filterMap (uevToEv server)) ++ [Ev.cbError server er] = _
        rw [hu]
        simp [List.append_assoc]
      · intro e he
        rcases List.mem_append.1 he with h1 | h2
        · exact Or.inl (hcu e h1)
        · rcases List.mem_append.1 h2 with h3 | h4
          · exact Or.inr (Or.inl (hnet e h3))
          · simp only [List.mem_singleton] at h4
            exact Or.inr (Or.inr (Or.inr ⟨er, h4⟩))
    · rw [if_neg hoe]
      refine ⟨Δu ++ ((uploadBlob server (env.net server) blob
        (msUploadOpts scopeMatch opts blob) st.aux).2.1).filterMap (uevToEv server), ?_, ?_⟩
      · show (uploadBlob server (env.net server) blob (msUploadOpts scopeMatch opts blob)
            st.aux).1.evs ++
          ((uploadBlob server (env.net server) blob (msUploadOpts scopeMatch opts blob)
            st.aux).2.1).filterMap (uevToEv server) = _
        rw [hu]
        simp [List.append_assoc]
      · intro e he
        rcases List.mem_append.1 he with h1 | h3
        · exact Or.inl (hcu e h1)
        · exact Or.inr (Or.inl (hnet e h3))

theorem msUploadPhase_initialUpload_some (scopeMatch : SignedEvent → String → Blob → Bool)
    (env : MSEnv) (opts : MSOpts) (blob : Blob) (st : MSState) (server : String)
    (d : BlobDescriptor) (h : st.initialUpload = some d) :
    (msUploadPhase scopeMatch env opts blob st server).initialUpload = some d := by
  cases hres : (uploadBlob server (env.net server) blob (msUploadOpts scopeMatch opts blob)
      st.aux).2.2 with
  | ok m =>
    rw [msUploadPhase_ok scopeMatch env opts blob st server m hres,
      recordSuccess_initialUpload]
    simp [h]
  | error er =>
    rw [msUploadPhase_err scopeMatch env opts blob st server er hres]
    exact h

theorem msStep_initialUpload_mono (scopeMatch : SignedEvent → String → Blob → Bool)
    (env : MSEnv) (opts : MSOpts) (blob : Blob) (st : MSState) (server : String)
    (d : BlobDescriptor) (h : st.initialUpload = some d) :
    (msStep scopeMatch env opts blob st server).initialUpload = some d := by
  cases hm : env.mirror server d with
  | ok m =>
    rw [msStep_mirror_ok scopeMatch env opts blob st server d m h hm,
      recordSuccess_initialUpload]
    exact h
  | error er =>
    rw [msStep_mirror_err scopeMatch env opts blob st server d er h hm]
    exact msUploadPhase_initialUpload_some scopeMatch env opts blob _ server d h

theorem msStep_evs_class (scopeMatch : SignedEvent → String → Blob → Bool) (env : MSEnv)
    (opts : MSOpts) (blob : Blob) (st : MSState) (server : String) :
    ∃ Δ, (msStep scopeMatch env opts blob st server).aux.evs = st.aux.evs ++ Δ ∧
      ∀ e ∈ Δ,
        (∃ d, e = Ev.mirrorCall server d opts.signal ∧ st.initialUpload = some d) ∨
        isResolverEv e = true ∨
        (∃ r c, e = Ev.netReq server r c ∧ r.signal = none) ∨
        e = Ev.cbUpload server ∨ ∃ er, e = Ev.cbError server er := by
  cases hinit : st.initialUpload with
  | none =>
    rw [msStep_none scopeMatch env opts blob st server hinit]
    rcases msUploadPhase_evs_class scopeMatch env opts blob st server with ⟨Δ, hΔ, hc⟩
    exact ⟨Δ, hΔ, fun e he => Or.inr (hc e he)⟩
  | some d =>
    cases hm : env.mirror server d with
    | ok m =>
      rw [msStep_mirror_ok scopeMatch env opts blob st server d m hinit hm,
        recordSuccess_evs]
      refine ⟨[Ev.mirrorCall server d opts.signal] ++
        (if opts.hasOnUpload = true then [Ev.cbUpload server] else []), ?_, ?_⟩
      · show ({ st.aux with
          evs := st.aux.evs ++ [Ev.mirrorCall server d opts.signal] } : MSAux).evs ++ _ = _
        simp [List.append_assoc]
      · intro e he
        rcases List.mem_append.1 he with h1 | h2
        · simp only [List.mem_singleton] at h1
          exact Or.inl ⟨d, h1, rfl⟩
        · by_cases hou : opts.hasOnUpload = true
          · rw [if_pos hou] at h2
            simp only [List.mem_singleton] at h2
            exact Or.inr (Or.inr (Or.inr (Or.inl h2)))
          · rw [if_neg hou] at h2
            exact absurd h2 (List.not_mem_nil e)
    | error er =>
      rw [msStep_mirror_err scopeMatch env opts blob st server d er hinit hm]
      rcases msUploadPhase_evs_class scopeMatch env opts blob
        { st with aux := { st.aux with
          evs := st.aux.evs ++ [Ev.mirrorCall server d opts.signal] } } server with ⟨Δ, hΔ, hc⟩
      refine ⟨Ev.mirrorCall server d opts.signal :: Δ, ?_, ?_⟩
      · rw [hΔ]
        simp
      · intro e he
        rcases List.mem_cons.1 he with h1 | h2
        · exact Or.inl ⟨d, h1, rfl⟩
        · exact Or.inr (hc e h2)

theorem msRun_evs_mono (scopeMatch : SignedEvent → String → Blob → Bool) (env : MSEnv)
    (opts : MSOpts) (blob : Blob) :
    ∀ (servers : List String) (st : MSState) (e : Ev), e ∈ st.aux.evs →
      e ∈ (List.foldl (msStep scopeMatch env opts blob) st servers).aux.evs := by
  intro servers
  induction servers with
  | nil =>
    intro st e he
    simpa using he
  | cons sv rest ih =>
    intro st e he
    simp only [List.foldl_cons]
    apply ih
    rcases msStep_evs_class scopeMatch env opts blob st sv with ⟨Δ, hΔ, _⟩
    rw [hΔ]
    exact List.mem_append.2 (Or.inl he)

theorem msRun_initialUpload_mono (scopeMatch : SignedEvent → String → Blob → Bool)
    (env : MSEnv) (opts : MSOpts) (blob : Blob) :
    ∀ (servers : List String) (st : MSState) (d : BlobDescriptor),
      st.initialUpload = some d →
      (List.foldl (msStep scopeMatch env opts blob) st servers).initialUpload = some d := by
  intro servers
  induction servers with
  | nil =>
    intro st d h
    simpa using h
  | cons sv rest ih =>
    intro st d h
    simp only [List.foldl_cons]
    exact ih _ d (msStep_initialUpload_mono scopeMatch env opts blob st sv d h)

theorem mirror_inv_step (scopeMatch : SignedEvent → String → Blob → Bool) (env : MSEnv)
    (opts : MSOpts) (blob : Blob) (st : MSState) (server : String)
    (hI : ∀ s d sg, Ev.mirrorCall s d sg ∈ st.aux.evs → st.initialUpload = some d) :
    ∀ s d sg, Ev.mirrorCall s d sg ∈ (msStep scopeMatch env opts blob st server).aux.evs →
      (msStep scopeMatch env opts blob st server).initialUpload = some d := by
  intro s d sg hmem
  rcases msStep_evs_class scopeMatch env opts blob st server with ⟨Δ, hΔ, hc⟩
  rw [hΔ] at hmem
  rcases List.mem_append.1 hmem with hold | hnew
  · exact msStep_initialUpload_mono scopeMatch env opts blob st server d (hI s d sg hold)
  · rcases hc _ hnew with ⟨d2, heq, hsome⟩ | h | ⟨r, c, heq, _⟩ | h | ⟨er, h⟩
    · rw [Ev.mirrorCall.injEq] at heq
      rw [heq.2.1]
      exact msStep_initialUpload_mono scopeMatch env opts blob st server d2 hsome
    · simp [isResolverEv] at h
    · exact absurd heq (by simp)
    · exact absurd h (by simp)
    · exact absurd h (by simp)

/-! ### Claim C10 -/

/-- C10: within one multiServerUpload run, once initialUpload is set it
is never reassigned — the per-server step preserves any already-set
value — and every mirror attempt of the run uses the final (hence the
first and only) initialUpload descriptor as its source. -/
theorem C10_initial_upload_stable (scopeMatch : SignedEvent → String → Blob → Bool)
    (env : MSEnv) (opts : MSOpts) (blob : Blob) :
    (∀ (st : MSState) (server : String) (d : BlobDescriptor), st.initialUpload = some d →
      (msStep scopeMatch env opts blob st server).initialUpload = some d) ∧
    (∀ (servers : List String) (s : String) (d : BlobDescriptor) (sg : Option Nat),
      Ev.mirrorCall s d sg ∈ (multiServerUpload scopeMatch env servers blob opts).aux.evs →
      (multiServerUpload scopeMatch env servers blob opts).initialUpload = some d) := by
  refine ⟨fun st server d h => msStep_initialUpload_mono scopeMatch env opts blob st server d h,
    ?_⟩
  have main : ∀ (servers : List String) (st : MSState),
      (∀ s d sg, Ev.mirrorCall s d sg ∈ st.aux.evs → st.initialUpload = some d) →
      ∀ s d sg,
        Ev.mirrorCall s d sg ∈
          (List.foldl (msStep scopeMatch env opts blob) st servers).aux.evs →
        (List.foldl (msStep scopeMatch env opts blob) st servers).initialUpload = some d := by
    intro servers
    induction servers with
    | nil =>
      intro st hI
      simpa using hI
    | cons sv rest ih =>
      intro st hI
      simp only [List.foldl_cons]
      exact ih (msStep scopeMatch env opts blob st sv)
        (mirror_inv_step scopeMatch env opts blob st sv hI)
  intro servers s d sg hmem
  exact main servers (msInit opts)
    (fun s2 d2 sg2 h2 => absurd h2 (by simp [msInit])) s d sg hmem

/-- C10 witness: the step applied to a state whose first upload is the
concrete descriptor keeps it, and in a concrete two-server run whose
trace contains a mirror attempt the source of that attempt is the final
initialUpload descriptor. -/
theorem C10_initial_upload_stable_witness :
    (msStep mTrue msEnvUp msOptsW wBlob stW "https://b").initialUpload = some wDescA ∧
    (multiServerUpload mTrue msEnvDup ["https://a", "https://b"] wBlob
      msOptsW).initialUpload = some wDescA :=
  ⟨(C10_initial_upload_stable mTrue msEnvUp msOptsW wBlob).1 stW "https://b" wDescA rfl,
   (C10_initial_upload_stable mTrue msEnvDup msOptsW wBlob).2
     ["https://a", "https://b"] "https://b" wDescA (some 7) (by decide)⟩

/-! ### Claim C9 -/

theorem msStep_sig_inv (scopeMatch : SignedEvent → String → Blob → Bool) (env : MSEnv)
    (opts : MSOpts) (blob : Blob) (st : MSState) (server : String)
    (hI : (∀ s r c, Ev.netReq s r c ∈ st.aux.evs → r.signal = none) ∧
      (∀ s d sg, Ev.mirrorCall s d sg ∈ st.aux.evs → sg = opts.signal)) :
    (∀ s r c, Ev.netReq s r c ∈ (msStep scopeMatch env opts blob st server).aux.evs →
      r.signal = none) ∧
    (∀ s d sg, Ev.mirrorCall s d sg ∈ (msStep scopeMatch env opts blob st server).aux.evs →
      sg = opts.signal) := by
  rcases msStep_evs_class scopeMatch env opts blob st server with ⟨Δ, hΔ, hc⟩
  constructor
  · intro s r c hmem
    rw [hΔ] at hmem
    rcases List.mem_append.1 hmem with hold | hnew
    · exact hI.1 s r c hold
    · rcases hc _ hnew with ⟨d2, heq, _⟩ | h | ⟨r2, c2, heq, hsig⟩ | h | ⟨er, h⟩
      · exact absurd heq (by simp)
      · simp [isResolverEv] at h
      · rw [Ev.netReq.injEq] at heq
        rw [heq.2.1]
        exact hsig
      · exact absurd h (by simp)
      · exact absurd h (by simp)
  · intro s d sg hmem
    rw [hΔ] at hmem
    rcases List.mem_append.1 hmem with hold | hnew
    · exact hI.2 s d sg hold
    · rcases hc _ hnew with ⟨d2, heq, _⟩ | h | ⟨r2, c2, heq, _⟩ | h | ⟨er, h⟩
      · rw [Ev.mirrorCall.injEq] at heq
        exact heq.2.2
      · simp [isResolverEv] at h
      · exact absurd heq (by simp)
      · exact absurd h (by simp)
      · exact absurd h (by simp)

/-- C9: the cancellation signal handed to multiServerUpload is passed to
every mirror attempt but to no network request of any uploadBlob call —
the code omits the signal when calling uploadBlob, so upload-path
requests always carry none, even when a signal was supplied. -/
theorem C9_signal_threading (scopeMatch : SignedEvent → String → Blob → Bool) (env : MSEnv)
    (opts : MSOpts) (blob : Blob) (servers : List String) :
    (∀ s r c, Ev.netReq s r c ∈ (multiServerUpload scopeMatch env servers blob opts).aux.evs →
      r.signal = none) ∧
    (∀ s d sg,
      Ev.mirrorCall s d sg ∈ (multiServerUpload scopeMatch env servers blob opts).aux.evs →
      sg = opts.signal) := by
  have main : ∀ (l : List String) (st : MSState),
      ((∀ s r c, Ev.netReq s r c ∈ st.aux.evs → r.signal = none) ∧
        (∀ s d sg, Ev.mirrorCall s d sg ∈ st.aux.evs → sg = opts.signal)) →
      (∀ s r c, Ev.netReq s r c ∈
          (List.foldl (msStep scopeMatch env opts blob) st l).aux.evs → r.signal = none) ∧
      (∀ s d sg, Ev.mirrorCall s d sg ∈
          (List.foldl (msStep scopeMatch env opts blob) st l).aux.evs → sg = opts.signal) := by
    intro l
    induction l with
    | nil =>
      intro st hI
      simpa using hI
    | cons sv rest ih =>
      intro st hI
      simp only [List.foldl_cons]
      exact ih _ (msStep_sig_inv scopeMatch env opts blob st sv hI)
  exact main servers (msInit opts)
    ⟨fun s r c h => absurd h (by simp [msInit]), fun s d sg h => absurd h (by simp [msInit])⟩

/-- C9 witness: in a concrete run carrying the signal `some 7`, the
upload-path preflight request observed in the trace carries no signal,
while the mirror attempt observed in the trace carries `some 7`. -/
theorem C9_signal_threading_witness :
    (uploadHeadReq wBlob none).signal = none ∧ (some 7 : Option Nat) = msOptsW.signal :=
  ⟨(C9_signal_threading mTrue msEnvDup msOptsW wBlob
      ["https://b", "https://a", "https://b"]).1 "https://a" (uploadHeadReq wBlob none) 200
      (by decide),
   (C9_signal_threading mTrue msEnvDup msOptsW wBlob
      ["https://b", "https://a", "https://b"]).2 "https://b" wDescA (some 7) (by decide)⟩

theorem resolver_not_cbError (e : Ev) (h : isResolverEv e = true) : isCbErrorEv e = false := by
  cases e <;> simp [isResolverEv, isCbErrorEv] at *

/-! ### Claim C3 -/

/-- C3: once a first upload succeeded, every later per-server step
attempts the mirror first (the mirror attempt with the first descriptor
as source is the first event the step appends, before any network
request of that server); when the mirror succeeds the step records its
descriptor and performs no upload request at all; when the mirror fails
the step is exactly the upload fallback applied after logging the
attempt — independent of the mirror error, which is swallowed — and if
that fallback succeeds the server is still recorded and no onError fires
in the step; and every server processed after the first success gets a
mirror attempt with that descriptor. -/
theorem C3_mirror_first (scopeMatch : SignedEvent → String → Blob → Bool) (env : MSEnv)
    (opts : MSOpts) (blob : Blob) :
    (∀ (st : MSState) (server : String) (d : BlobDescriptor), st.initialUpload = some d →
      ∃ Δ, (msStep scopeMatch env opts blob st server).aux.evs =
        st.aux.evs ++ Ev.mirrorCall server d opts.signal :: Δ) ∧
    (∀ (st : MSState) (server : String) (d m : BlobDescriptor), st.initialUpload = some d →
      env.mirror server d = .ok m →
      (msStep scopeMatch env opts blob st server).results = setResult st.results server m ∧
      (msStep scopeMatch env opts blob st server).aux.evs =
        st.aux.evs ++ Ev.mirrorCall server d opts.signal ::
          (if opts.hasOnUpload = true then [Ev.cbUpload server] else [])) ∧
    (∀ (st : MSState) (server : String) (d : BlobDescriptor) (e : Err),
      st.initialUpload = some d → env.mirror server d = .error e →
      msStep scopeMatch env opts blob st server =
        msUploadPhase scopeMatch env opts blob
          { st with aux := { st.aux with
            evs := st.aux.evs ++ [Ev.mirrorCall server d opts.signal] } } server) ∧
    (∀ (st : MSState) (server : String) (d : BlobDescriptor) (e : Err) (m : BlobDescriptor),
      st.initialUpload = some d → env.mirror server d = .error e →
      (uploadBlob server (env.net server) blob (msUploadOpts scopeMatch opts blob)
        { st.aux with evs := st.aux.evs ++ [Ev.mirrorCall server d opts.signal] }).2.2 =
          .ok m →
      lookupResult (msStep scopeMatch env opts blob st server).results server = some m ∧
      countEv isCbErrorEv (msStep scopeMatch env opts blob st server).aux.evs =
        countEv isCbErrorEv st.aux.evs) ∧
    (∀ (servers : List String) (st : MSState) (d : BlobDescriptor),
      st.initialUpload = some d →
      ∀ server ∈ servers,
        Ev.mirrorCall server d opts.signal ∈
          (List.foldl (msStep scopeMatch env opts blob) st servers).aux.evs) := by
  have part1 : ∀ (st : MSState) (server : String) (d : BlobDescriptor),
      st.initialUpload = some d →
      ∃ Δ, (msStep scopeMatch env opts blob st server).aux.evs =
        st.aux.evs ++ Ev.mirrorCall server d opts.signal :: Δ := by
    intro st server d h
    cases hm : env.mirror server d with
    | ok m =>
      rw [msStep_mirror_ok scopeMatch env opts blob st server d m h hm, recordSuccess_evs]
      exact ⟨(if opts.hasOnUpload = true then [Ev.cbUpload server] else []), by simp⟩
    | error er =>
      rw [msStep_mirror_err scopeMatch env opts blob st server d er h hm]
      rcases msUploadPhase_evs_class scopeMatch env opts blob
        { st with aux := { st.aux with
          evs := st.aux.evs ++ [Ev.mirrorCall server d opts.signal] } } server with ⟨Δ, hΔ, _⟩
      exact ⟨Δ, by rw [hΔ]; simp⟩
  refine ⟨part1, ?_, ?_, ?_, ?_⟩
  · intro st server d m h hm
    rw [msStep_mirror_ok scopeMatch env opts blob st server d m h hm, recordSuccess_evs,
      recordSuccess_results]
    exact ⟨rfl, by simp⟩
  · intro st server d e h hm
    exact msStep_mirror_err scopeMatch env opts blob st server d e h hm
  · intro st server d e m h hm hup
    rw [msStep_mirror_err scopeMatch env opts blob st server d e h hm,
      msUploadPhase_ok scopeMatch env opts blob _ server m hup]
    constructor
    · rw [recordSuccess_results]
      exact lookupResult_setResult_self _ server m
    · rw [recordSuccess_evs]
      rcases msUpload_aux_evs scopeMatch opts blob server (env.net server)
        { st.aux with evs := st.aux.evs ++ [Ev.mirrorCall server d opts.signal] } with
        ⟨Δu, hu, hcu⟩
      have hnet := msUpload_net_class scopeMatch opts blob server (env.net server)
        { st.aux with evs := st.aux.evs ++ [Ev.mirrorCall server d opts.signal] }
      show countEv isCbErrorEv (({ (uploadBlob server (env.net server) blob
          (msUploadOpts scopeMatch opts blob)
          { st.aux with
            evs := st.aux.evs ++ [Ev.mirrorCall server d opts.signal] }).1 with
        evs := (uploadBlob server (env.net server) blob (msUploadOpts scopeMatch opts blob)
            { st.aux with
              evs := st.aux.evs ++ [Ev.mirrorCall server d opts.signal] }).1.evs ++
          ((uploadBlob server (env.net server) blob (msUploadOpts scopeMatch opts blob)
            { st.aux with
              evs := st.aux.evs ++ [Ev.mirrorCall server d opts.signal] }).2.1).filterMap
            (uevToEv server) } : MSAux).evs ++
          (if opts.hasOnUpload = true then [Ev.cbUpload server] else [])) =
        countEv isCbErrorEv st.aux.evs

      rw [hu]
      rw [countEv_append, countEv_append, countEv_append, countEv_append]
      have h1 : countEv isCbErrorEv [Ev.mirrorCall server d opts.signal] = 0 := rfl
      have h2 : countEv isCbErrorEv Δu = 0 :=
        countEv_zero _ _ (fun x hx => resolver_not_cbError x (hcu x hx))
      have h3 : countEv isCbErrorEv (((uploadBlob server (env.net server) blob
          (msUploadOpts scopeMatch opts blob)
          { st.aux with
            evs := st.aux.evs ++ [Ev.mirrorCall server d opts.signal] }).2.1).filterMap
          (uevToEv server)) = 0 := by
        refine countEv_zero _ _ (fun x hx => ?_)
        rcases hnet x hx with ⟨r, c, hre, _⟩
        rw [hre]
        rfl
      have h4 : countEv isCbErrorEv
          (if opts.hasOnUpload = true then [Ev.cbUpload server] else []) = 0 := by
        by_cases hou : opts.hasOnUpload = true
        · rw [if_pos hou]
          rfl
        · rw [if_neg hou]
          rfl
      omega
  · intro servers
    induction servers with
    | nil =>
      intro st d h server hmem
      exact absurd hmem (List.not_mem_nil server)
    | cons sv rest ih =>
      intro st d h server hmem
      rcases List.mem_cons.1 hmem with heq | hmem2
      · subst heq
        rcases part1 st server d h with ⟨Δ, hΔ⟩
        simp only [List.foldl_cons]
        apply msRun_evs_mono scopeMatch env opts blob rest
        rw [hΔ]
        exact List.mem_append.2 (Or.inr (List.mem_cons_self _ _))
      · simp only [List.foldl_cons]
        exact ih (msStep scopeMatch env opts blob st sv) d
          (msStep_initialUpload_mono scopeMatch env opts blob st sv d h) server hmem2

/-- C3 witness: the parts of the theorem applied to concrete states — a
successful concrete mirror records the mirrored descriptor without any
upload request, and after a failed concrete mirror the successful upload
fallback still records the server with no onError event. -/
theorem C3_mirror_first_witness :
    ((msStep mTrue msEnvDup msOptsW wBlob stW "https://b").results =
      setResult stW.results "https://b" wDescB ∧
      (msStep mTrue msEnvDup msOptsW wBlob stW "https://b").aux.evs =
        stW.aux.evs ++ Ev.mirrorCall "https://b" wDescA msOptsW.signal ::
          (if msOptsW.hasOnUpload = true then [Ev.cbUpload "https://b"] else [])) ∧
    (lookupResult (msStep mTrue msEnvUp msOptsW wBlob stW "https://b").results "https://b" =
      some wDescA ∧
      countEv isCbErrorEv (msStep mTrue msEnvUp msOptsW wBlob stW "https://b").aux.evs =
        countEv isCbErrorEv stW.aux.evs) :=
  ⟨(C3_mirror_first mTrue msEnvDup msOptsW wBlob).2.1 stW "https://b" wDescA wDescB rfl
      (by decide),
   (C3_mirror_first mTrue msEnvUp msOptsW wBlob).2.2.2.1 stW "https://b" wDescA
      (Err.msg "no") wDescA rfl (by decide) (by decide)⟩

/-! ### Claim C6 helper lemmas -/

theorem resolver_not_head402 (e : Ev) (h : isResolverEv e = true) : isHead402Ev e = false := by
  cases e <;> simp [isResolverEv, isHead402Ev] at *

theorem commitFree_countHead402 {σ : Type} (net : Request → Response) (sig : Option Nat)
    (s : σ) (evs : List UEv) (check : Response) :
    countHead402U (commitFree net sig s evs check).2.1 = countHead402U evs := by
  have hf : ∀ c, isHead402U (.req (freePutReq sig) c) = false := fun c => rfl
  simp only [commitFree]
  split
  · rfl
  · split <;> simp [countHead402U, List.filter_append, hf]

theorem uploadBlob_head402_count {σ : Type} (server : String) (net : Request → Response)
    (blob : Blob) (o : UploadOpts σ) (s0 : σ) :
    countHead402U (uploadBlob server net blob o s0).2.1 =
      if (net (uploadHeadReq blob o.signal)).status = 402 then 1 else 0 := by
  by_cases h402 : (net (uploadHeadReq blob o.signal)).status = 402
  · rw [if_pos h402]
    simp only [uploadBlob, uploadBlobCore, h402, reduceIte]
    cases hop : o.onPayment with
    | none => rfl
    | some f =>
      dsimp only
      cases hres : (f s0 server blob (net (uploadHeadReq blob o.signal)).paymentReq).2 with
      | error e =>
        dsimp only
        rfl
      | ok token =>
        dsimp only
        rw [commitFree_countHead402]
        rfl
  · rw [if_neg h402]
    have hh : isHead402U
        (.req (uploadHeadReq blob o.signal) ((net (uploadHeadReq blob o.signal)).status)) =
        false := by
      have h2 : ((net (uploadHeadReq blob o.signal)).status == 402) = false :=
        beq_eq_false_iff_ne.2 h402
      simp [isHead402U, h2]
    by_cases h403 : (net (uploadHeadReq blob o.signal)).status = 403
    · simp only [uploadBlob, uploadBlobCore, h403]
      rw [if_neg (by decide : ¬(403 : Nat) = 402), if_pos trivial]
      cases hauth : o.auth with
      | some a =>
        dsimp only
        rw [commitFree_countHead402]
        rfl
      | none =>
        dsimp only
        cases honAuth : o.onAuth with
        | none => rfl
        | some f =>
          dsimp only
          cases hres : (f s0 server blob).2 with
          | error e =>
            dsimp only
            rfl
          | ok a =>
            dsimp only
            rw [commitFree_countHead402]
            rfl
    · simp only [uploadBlob, uploadBlobCore]
      rw [if_neg h402, if_neg h403, commitFree_countHead402]
      simp [countHead402U, List.filter_cons, hh]

theorem countEv_head402_filterMap (server : String) (uevs : List UEv) :
    countEv isHead402Ev (uevs.filterMap (uevToEv server)) = countHead402U uevs := by
  induction uevs with
  | nil => rfl
  | cons u rest ih =>
    cases u with
    | req r c =>
      have heq : isHead402Ev (Ev.netReq server r c) = isHead402U (UEv.req r c) := rfl
      simp only [List.filterMap_cons, uevToEv, countEv, countHead402U, List.filter_cons,
        heq] at *
      by_cases hp : isHead402U (UEv.req r c) = true
      · simp [hp] at *
        exact ih
      · simp [Bool.of_not_eq_true hp] at *
        exact ih
    | authCb =>
      simpa [List.filterMap_cons, uevToEv, countHead402U, List.filter_cons, isHead402U]
        using ih
    | payCb =>
      simpa [List.filterMap_cons, uevToEv, countHead402U, List.filter_cons, isHead402U]
        using ih

theorem msUpload_payCount (scopeMatch : SignedEvent → String → Blob → Bool) (opts : MSOpts)
    (blob : Blob) (server : String) (net : Request → Response) (aux : MSAux)
    (f : String → Blob → PaymentRequest → Token) (hp : opts.onPayment = some f) :
    countEv isUserPayEv
        (uploadBlob server net blob (msUploadOpts scopeMatch opts blob) aux).1.evs =
      countEv isUserPayEv aux.evs +
        (if (net (uploadHeadReq blob none)).status = 402 then 1 else 0) := by
  have haux : countEv isUserPayEv (handleAuthRequest scopeMatch opts blob aux server).1.evs =
      countEv isUserPayEv aux.evs := by
    rcases handleAuthRequest_evs scopeMatch opts blob aux server with h | ⟨a, h⟩
    · rw [h]
    · rw [h, countEv_append]
      rfl
  by_cases h402 : (net (uploadHeadReq blob none)).status = 402
  · rw [if_pos h402]
    simp only [uploadBlob, uploadBlobCore, msUploadOpts, h402, reduceIte]
    rw [handlePaymentRequest_some opts blob aux server _ f hp]
    dsimp only
    rw [commitFree_fst]
    simp [countEv_append, countEv, isUserPayEv]
  · rw [if_neg h402]
    by_cases h403 : (net (uploadHeadReq blob none)).status = 403
    · simp only [uploadBlob, uploadBlobCore, msUploadOpts, h403]
      rw [if_neg (by decide : ¬(403 : Nat) = 402), if_pos trivial]
      cases hres : (handleAuthRequest scopeMatch opts blob aux server).2 with
      | error e =>
        dsimp only
        simpa using haux
      | ok a =>
        dsimp only
        rw [commitFree_fst]
        simpa using haux
    · simp only [uploadBlob, uploadBlobCore, msUploadOpts]
      rw [if_neg h402, if_neg h403, commitFree_fst]
      simp

theorem msUpload_payToken (scopeMatch : SignedEvent → String → Blob → Bool) (opts : MSOpts)
    (blob : Blob) (server : String) (net : Request → Response) (aux : MSAux)
    (f : String → Blob → PaymentRequest → Token) (hp : opts.onPayment = some f) :
    ∀ s pr t, Ev.userPay s pr t ∈
        (uploadBlob server net blob (msUploadOpts scopeMatch opts blob) aux).1.evs →
      Ev.userPay s pr t ∈ aux.evs ∨ (s = server ∧ t = f s blob pr) := by
  intro s pr t hmem
  rcases msUpload_aux_cases scopeMatch opts blob server net aux with h | h | h
  · rw [h] at hmem
    exact Or.inl hmem
  · rw [h] at hmem
    rcases handleAuthRequest_evs scopeMatch opts blob aux server with h2 | ⟨a, h2⟩
    · rw [h2] at hmem
      exact Or.inl hmem
    · rw [h2] at hmem
      rcases List.mem_append.1 hmem with h3 | h3
      · exact Or.inl h3
      · simp only [List.mem_singleton] at h3
        exact absurd h3 (by simp)
  · rw [h, handlePaymentRequest_some opts blob aux server _ f hp] at hmem
    rcases List.mem_append.1 hmem with h3 | h3
    · exact Or.inl h3
    · simp only [List.mem_singleton] at h3
      rw [Ev.userPay.injEq] at h3
      refine Or.inr ⟨h3.1, ?_⟩
      rw [h3.2.2, h3.1, h3.2.1]

theorem msUploadPhase_payCount (scopeMatch : SignedEvent → String → Blob → Bool)
    (env : MSEnv) (opts : MSOpts) (blob : Blob) (st : MSState) (server : String)
    (f : String → Blob → PaymentRequest → Token) (hp : opts.onPayment = some f) :
    ∃ k, countEv isUserPayEv (msUploadPhase scopeMatch env opts blob st server).aux.evs =
        countEv isUserPayEv st.aux.evs + k ∧
      countEv isHead402Ev (msUploadPhase scopeMatch env opts blob st server).aux.evs =
        countEv isHead402Ev st.aux.evs + k := by
  have hA := msUpload_payCount scopeMatch opts blob server (env.net server) st.aux f hp
  have hB : countEv isHead402Ev (uploadBlob server (env.net server) blob
      (msUploadOpts scopeMatch opts blob) st.aux).1.evs =
      countEv isHead402Ev st.aux.evs := by
    rcases msUpload_aux_evs scopeMatch opts blob server (env.net server) st.aux with
      ⟨Δu, hu, hcu⟩
    rw [hu, countEv_append,
      countEv_zero _ _ (fun x hx => resolver_not_head402 x (hcu x hx))]
    omega
  have hC : countEv isHead402Ev (((uploadBlob server (env.net server) blob
      (msUploadOpts scopeMatch opts blob) st.aux).2.1).filterMap (uevToEv server)) =
      (if (env.net server (uploadHeadReq blob none)).status = 402 then 1 else 0) := by
    rw [countEv_head402_filterMap,
      uploadBlob_head402_count server (env.net server) blob
        (msUploadOpts scopeMatch opts blob) st.aux]
    rfl
  have hD : countEv isUserPayEv (((uploadBlob server (env.net server) blob
      (msUploadOpts scopeMatch opts blob) st.aux).2.1).filterMap (uevToEv server)) = 0 := by
    refine countEv_zero _ _ (fun x hx => ?_)
    rcases msUpload_net_class scopeMatch opts blob server (env.net server) st.aux x hx with
      ⟨r, c, hre, _⟩
    rw [hre]
    rfl
  have hcbU : ∀ er, countEv isUserPayEv [Ev.cbError server er] = 0 := fun er => rfl
  have hcbH : ∀ er, countEv isHead402Ev [Ev.cbError server er] = 0 := fun er => rfl
  have htU : countEv isUserPayEv
      (if opts.hasOnUpload = true then [Ev.cbUpload server] else []) = 0 := by
    by_cases hou : opts.hasOnUpload = true
    · rw [if_pos hou]
      rfl
    · rw [if_neg hou]
      rfl
  have htH : countEv isHead402Ev
      (if opts.hasOnUpload = true then [Ev.cbUpload server] else []) = 0 := by
    by_cases hou : opts.hasOnUpload = true
    · rw [if_pos hou]
      rfl
    · rw [if_neg hou]
      rfl
  refine ⟨(if (env.net server (uploadHeadReq blob none)).status = 402 then 1 else 0), ?_, ?_⟩
  · cases hres : (uploadBlob server (env.net server) blob (msUploadOpts scopeMatch opts blob)
        st.aux).2.2 with
    | ok m =>
      rw [msUploadPhase_ok scopeMatch env opts blob st server m hres, recordSuccess_evs]
      show countEv isUserPayEv (((uploadBlob server (env.net server) blob
          (msUploadOpts scopeMatch opts blob) st.aux).1.evs ++
        ((uploadBlob server (env.net server) blob (msUploadOpts scopeMatch opts blob)
          st.aux).2.1).filterMap (uevToEv server)) ++
        (if opts.hasOnUpload = true then [Ev.cbUpload server] else [])) = _
      rw [countEv_append, countEv_append, hA, hD, htU]
      omega
    | error er =>
      rw [msUploadPhase_err scopeMatch env opts blob st server er hres]
      by_cases hoe : opts.hasOnError = true
      · rw [if_pos hoe]
        show countEv isUserPayEv (((uploadBlob server (env.net server) blob
            (msUploadOpts scopeMatch opts blob) st.aux).1.evs ++
          ((uploadBlob server (env.net server) blob (msUploadOpts scopeMatch opts blob)
            st.aux).2.1).filterMap (uevToEv server)) ++ [Ev.cbError server er]) = _
        rw [countEv_append, countEv_append, hA, hD, hcbU]
        omega
      · rw [if_neg hoe]
        show countEv isUserPayEv ((uploadBlob server (env.net server) blob
            (msUploadOpts scopeMatch opts blob) st.aux).1.evs ++
          ((uploadBlob server (env.net server) blob (msUploadOpts scopeMatch opts blob)
            st.aux).2.1).filterMap (uevToEv server)) = _
        rw [countEv_append, hA, hD]
        omega
  · cases hres : (uploadBlob server (env.net server) blob (msUploadOpts scopeMatch opts blob)
        st.aux).2.2 with
    | ok m =>
      rw [msUploadPhase_ok scopeMatch env opts blob st server m hres, recordSuccess_evs]
      show countEv isHead402Ev (((uploadBlob server (env.net server) blob
          (msUploadOpts scopeMatch opts blob) st.aux).1.evs ++
        ((uploadBlob server (env.net server) blob (msUploadOpts scopeMatch opts blob)
          st.aux).2.1).filterMap (uevToEv server)) ++
        (if opts.hasOnUpload = true then [Ev.cbUpload server] else [])) = _
      rw [countEv_append, countEv_append, hB, hC, htH]
      omega
    | error er =>
      rw [msUploadPhase_err scopeMatch env opts blob st server er hres]
      by_cases hoe : opts.hasOnError = true
      · rw [if_pos hoe]
        show countEv isHead402Ev (((uploadBlob server (env.net server) blob
            (msUploadOpts scopeMatch opts blob) st.aux).1.evs ++
          ((uploadBlob server (env.net server) blob (msUploadOpts scopeMatch opts blob)
            st.aux).2.1).filterMap (uevToEv server)) ++ [Ev.cbError server er]) = _
        rw [countEv_append, countEv_append, hB, hC, hcbH]
        omega
      · rw [if_neg hoe]
        show countEv isHead402Ev ((uploadBlob server (env.net server) blob
            (msUploadOpts scopeMatch opts blob) st.aux).1.evs ++
          ((uploadBlob server (env.net server) blob (msUploadOpts scopeMatch opts blob)
            st.aux).2.1).filterMap (uevToEv server)) = _
        rw [countEv_append, hB, hC]

theorem msStep_payCount (scopeMatch : SignedEvent → String → Blob → Bool) (env : MSEnv)
    (opts : MSOpts) (blob : Blob) (st : MSState) (server : String)
    (f : String → Blob → PaymentRequest → Token) (hp : opts.onPayment = some f) :
    ∃ k, countEv isUserPayEv (msStep scopeMatch env opts blob st server).aux.evs =
        countEv isUserPayEv st.aux.evs + k ∧
      countEv isHead402Ev (msStep scopeMatch env opts blob st server).aux.evs =
        countEv isHead402Ev st.aux.evs + k := by
  cases hinit : st.initialUpload with
  | none =>
    rw [msStep_none scopeMatch env opts blob st server hinit]
    exact msUploadPhase_payCount scopeMatch env opts blob st server f hp
  | some d =>
    cases hm : env.mirror server d with
    | ok m =>
      have hmU : countEv isUserPayEv [Ev.mirrorCall server d opts.signal] = 0 := rfl
      have hmH : countEv isHead402Ev [Ev.mirrorCall server d opts.signal] = 0 := rfl
      have htU : countEv isUserPayEv
          (if opts.hasOnUpload = true then [Ev.cbUpload server] else []) = 0 := by
        by_cases hou : opts.hasOnUpload = true
        · rw [if_pos hou]
          rfl
        · rw [if_neg hou]
          rfl
      have htH : countEv isHead402Ev
          (if opts.hasOnUpload = true then [Ev.cbUpload server] else []) = 0 := by
        by_cases hou : opts.hasOnUpload = true
        · rw [if_pos hou]
          rfl
        · rw [if_neg hou]
          rfl
      refine ⟨0, ?_, ?_⟩
      · rw [msStep_mirror_ok scopeMatch env opts blob st server d m hinit hm,
          recordSuccess_evs]
        show countEv isUserPayEv ((st.aux.evs ++ [Ev.mirrorCall server d opts.signal]) ++
          (if opts.hasOnUpload = true then [Ev.cbUpload server] else [])) = _
        rw [countEv_append, countEv_append, hmU, htU]
      · rw [msStep_mirror_ok scopeMatch env opts blob st server d m hinit hm,
          recordSuccess_evs]
        show countEv isHead402Ev ((st.aux.evs ++ [Ev.mirrorCall server d opts.signal]) ++
          (if opts.hasOnUpload = true then [Ev.cbUpload server] else [])) = _
        rw [countEv_append, countEv_append, hmH, htH]
    | error er =>
      rw [msStep_mirror_err scopeMatch env opts blob st server d er hinit hm]
      rcases msUploadPhase_payCount scopeMatch env opts blob
        { st with aux := { st.aux with
          evs := st.aux.evs ++ [Ev.mirrorCall server d opts.signal] } } server f hp with
        ⟨k, h1, h2⟩
      refine ⟨k, ?_, ?_⟩
      · rw [h1]
        show countEv isUserPayEv (st.aux.evs ++ [Ev.mirrorCall server d opts.signal]) + k = _
        rw [countEv_append]
        rfl
      · rw [h2]
        show countEv isHead402Ev (st.aux.evs ++ [Ev.mirrorCall server d opts.signal]) + k = _
        rw [countEv_append]
        rfl

theorem msUploadPhase_payToken (scopeMatch : SignedEvent → String → Blob → Bool)
    (env : MSEnv) (opts : MSOpts) (blob : Blob) (st : MSState) (server : String)
    (f : String → Blob → PaymentRequest → Token) (hp : opts.onPayment = some f) :
    ∀ s pr t, Ev.userPay s pr t ∈ (msUploadPhase scopeMatch env opts blob st server).aux.evs →
      Ev.userPay s pr t ∈ st.aux.evs ∨ t = f s blob pr := by
  intro s pr t hmem
  rcases msUploadPhase_evs_class scopeMatch env opts blob st server with ⟨Δ, hΔ, hc⟩
  rw [hΔ] at hmem
  rcases List.mem_append.1 hmem with hold | hnew
  · exact Or.inl hold
  · rcases hc _ hnew with h | ⟨r, c, heq, _⟩ | h | ⟨er, h⟩
    · -- a resolver event that is a userPay comes from handlePaymentRequest
      -- recover it through the membership lemma instead
      have hup : Ev.userPay s pr t ∈
          (msUploadPhase scopeMatch env opts blob st server).aux.evs := by
        rw [hΔ]
        exact List.mem_append.2 (Or.inr hnew)
      -- analyze the phase directly
      cases hres : (uploadBlob server (env.net server) blob (msUploadOpts scopeMatch opts blob)
          st.aux).2.2 with
      | ok m =>
        rw [msUploadPhase_ok scopeMatch env opts blob st server m hres,
          recordSuccess_evs] at hup
        rcases List.mem_append.1 hup with h1 | h2
        · rcases List.mem_append.1 h1 with h3 | h4
          · rcases msUpload_payToken scopeMatch opts blob server (env.net server) st.aux f hp
              s pr t h3 with h5 | h5
            · exact Or.inl h5
            · exact Or.inr h5.2
          · rcases msUpload_net_class scopeMatch opts blob server (env.net server) st.aux _
              h4 with ⟨r, c, hre, _⟩
            exact absurd hre (by simp)
        · by_cases hou : opts.hasOnUpload = true
          · rw [if_pos hou] at h2
            simp only [List.mem_singleton] at h2
            exact absurd h2 (by simp)
          · rw [if_neg hou] at h2
            exact absurd h2 (List.not_mem_nil _)
      | error er2 =>
        rw [msUploadPhase_err scopeMatch env opts blob st server er2 hres] at hup
        by_cases hoe : opts.hasOnError = true
        · rw [if_pos hoe] at hup
          rcases List.mem_append.1 hup with h1 | h2
          · rcases List.mem_append.1 h1 with h3 | h4
            · rcases msUpload_payToken scopeMatch opts blob server (env.net server) st.aux f
                hp s pr t h3 with h5 | h5
              · exact Or.inl h5
              · exact Or.inr h5.2
            · rcases msUpload_net_class scopeMatch opts blob server (env.net server) st.aux _
                h4 with ⟨r, c, hre, _⟩
              exact absurd hre (by simp)
          · simp only [List.mem_singleton] at h2
            exact absurd h2 (by simp)
        · rw [if_neg hoe] at hup
          rcases List.mem_append.1 hup with h3 | h4
          · rcases msUpload_payToken scopeMatch opts blob server (env.net server) st.aux f hp
              s pr t h3 with h5 | h5
            · exact Or.inl h5
            · exact Or.inr h5.2
          · rcases msUpload_net_class scopeMatch opts blob server (env.net server) st.aux _
              h4 with ⟨r, c, hre, _⟩
            exact absurd hre (by simp)
    · exact absurd heq (by simp)
    · exact absurd h (by simp)
    · exact absurd h (by simp)

theorem msStep_payToken (scopeMatch : SignedEvent → String → Blob → Bool) (env : MSEnv)
    (opts : MSOpts) (blob : Blob) (st : MSState) (server : String)
    (f : String → Blob → PaymentRequest → Token) (hp : opts.onPayment = some f) :
    ∀ s pr t, Ev.userPay s pr t ∈ (msStep scopeMatch env opts blob st server).aux.evs →
      Ev.userPay s pr t ∈ st.aux.evs ∨ t = f s blob pr := by
  intro s pr t hmem
  cases hinit : st.initialUpload with
  | none =>
    rw [msStep_none scopeMatch env opts blob st server hinit] at hmem
    exact msUploadPhase_payToken scopeMatch env opts blob st server f hp s pr t hmem
  | some d =>
    cases hm : env.mirror server d with
    | ok m =>
      rw [msStep_mirror_ok scopeMatch env opts blob st server d m hinit hm,
        recordSuccess_evs] at hmem
      rcases List.mem_append.1 hmem with h1 | h2
      · rcases List.mem_append.1 h1 with h3 | h4
        · exact Or.inl h3
        · simp only [List.mem_singleton] at h4
          exact absurd h4 (by simp)
      · by_cases hou : opts.hasOnUpload = true
        · rw [if_pos hou] at h2
          simp only [List.mem_singleton] at h2
          exact absurd h2 (by simp)
        · rw [if_neg hou] at h2
          exact absurd h2 (List.not_mem_nil _)
    | error er =>
      rw [msStep_mirror_err scopeMatch env opts blob st server d er hinit hm] at hmem
      rcases msUploadPhase_payToken scopeMatch env opts blob
        { st with aux := { st.aux with
          evs := st.aux.evs ++ [Ev.mirrorCall server d opts.signal] } } server f hp
        s pr t hmem with h1 | h1
      · rcases List.mem_append.1 h1 with h3 | h4
        · exact Or.inl h3
        · simp only [List.mem_singleton] at h4
          exact absurd h4 (by simp)
      · exact Or.inr h1

/-! ### Claim C6 -/

/-- C6: in a multiServerUpload run with a payment resolver configured,
the caller-supplied resolver is invoked exactly once per 402 challenge —
the number of resolver invocations equals the number of 402-answered
preflights in the trace — and every minted token is the resolver output
for that very server and challenge, so tokens are never cached or reused
across servers: two servers each answering 402 yield two independent
invocations. -/
theorem C6_fresh_payment_per_challenge (scopeMatch : SignedEvent → String → Blob → Bool)
    (env : MSEnv) (opts : MSOpts) (blob : Blob) (servers : List String)
    (f : String → Blob → PaymentRequest → Token) (hp : opts.onPayment = some f) :
    countEv isUserPayEv (multiServerUpload scopeMatch env servers blob opts).aux.evs =
      countEv isHead402Ev (multiServerUpload scopeMatch env servers blob opts).aux.evs ∧
    (∀ s pr t,
      Ev.userPay s pr t ∈ (multiServerUpload scopeMatch env servers blob opts).aux.evs →
      t = f s blob pr) := by
  have main : ∀ (l : List String) (st : MSState),
      countEv isUserPayEv st.aux.evs = countEv isHead402Ev st.aux.evs →
      (∀ s pr t, Ev.userPay s pr t ∈ st.aux.evs → t = f s blob pr) →
      countEv isUserPayEv (List.foldl (msStep scopeMatch env opts blob) st l).aux.evs =
        countEv isHead402Ev (List.foldl (msStep scopeMatch env opts blob) st l).aux.evs ∧
      (∀ s pr t,
        Ev.userPay s pr t ∈ (List.foldl (msStep scopeMatch env opts blob) st l).aux.evs →
        t = f s blob pr) := by
    intro l
    induction l with
    | nil =>
      intro st h1 h2
      exact ⟨h1, h2⟩
    | cons sv rest ih =>
      intro st h1 h2
      simp only [List.foldl_cons]
      refine ih (msStep scopeMatch env opts blob st sv) ?_ ?_
      · rcases msStep_payCount scopeMatch env opts blob st sv f hp with ⟨k, hk1, hk2⟩
        rw [hk1, hk2, h1]
      · intro s pr t hmem
        rcases msStep_payToken scopeMatch env opts blob st sv f hp s pr t hmem with h | h
        · exact h2 s pr t h
        · exact h
  exact main servers (msInit opts) rfl
    (fun s pr t hmem => absurd hmem (by simp [msInit]))

/-- C6 witness: in a concrete run over two servers that both answer 402,
the number of payment-resolver invocations equals the number of 402
challenges (two), and the token observed for the first server is the
resolver output minted for that server and challenge. -/
theorem C6_fresh_payment_per_challenge_witness :
    countEv isUserPayEv
        (multiServerUpload mTrue msEnv402 ["https://a", "https://b"] wBlob msOptsW).aux.evs =
      countEv isHead402Ev
        (multiServerUpload mTrue msEnv402 ["https://a", "https://b"] wBlob
          msOptsW).aux.evs ∧
    ({ tid := 1 } : Token) =
      (fun (s : String) (_ : Blob) (_ : PaymentRequest) =>
        if s == "https://a" then ({ tid := 1 } : Token) else { tid := 2 })
        "https://a" wBlob { amount := 5 } :=
  ⟨(C6_fresh_payment_per_challenge mTrue msEnv402 msOptsW wBlob ["https://a", "https://b"]
      (fun s _ _ => if s == "https://a" then { tid := 1 } else { tid := 2 }) rfl).1,
   (C6_fresh_payment_per_challenge mTrue msEnv402 msOptsW wBlob ["https://a", "https://b"]
      (fun s _ _ => if s == "https://a" then { tid := 1 } else { tid := 2 }) rfl).2
      "https://a" { amount := 5 } { tid := 1 } (by decide)⟩

/-! ### Claim C4 helper lemmas -/

theorem filter_cbError_for (t : String) (Δ : List Ev) :
    Δ.filter (isCbErrorForEv t) = (Δ.filter isCbErrorEv).filter (isCbErrorForEv t) := by
  induction Δ with
  | nil => rfl
  | cons e rest ih =>
    cases e <;> simp [List.filter_cons, isCbErrorEv, isCbErrorForEv, ih]

theorem msUploadPhase_outcome (scopeMatch : SignedEvent → String → Blob → Bool)
    (env : MSEnv) (opts : MSOpts) (blob : Blob) (st : MSState) (server : String)
    (hOE : opts.hasOnError = true) :
    ∃ Δ, (msUploadPhase scopeMatch env opts blob st server).aux.evs = st.aux.evs ++ Δ ∧
      ((∃ m, (msUploadPhase scopeMatch env opts blob st server).results =
          setResult st.results server m ∧ Δ.filter isCbErrorEv = []) ∨
        ((msUploadPhase scopeMatch env opts blob st server).results = st.results ∧
          ∃ er, Δ.filter isCbErrorEv = [Ev.cbError server er])) := by
  rcases msUpload_aux_evs scopeMatch opts blob server (env.net server) st.aux with ⟨Δu, hu, hcu⟩
  have hnet := msUpload_net_class scopeMatch opts blob server (env.net server) st.aux
  have hfu : Δu.filter isCbErrorEv = [] :=
    List.filter_eq_nil_iff.2 (fun e he => by
      rw [resolver_not_cbError e (hcu e he)]
      simp)
  have hfn : (((uploadBlob server (env.net server) blob (msUploadOpts scopeMatch opts blob)
      st.aux).2.1).filterMap (uevToEv server)).filter isCbErrorEv = [] :=
    List.filter_eq_nil_iff.2 (fun e he => by
      rcases hnet e he with ⟨r, c, hre, _⟩
      rw [hre]
      simp [isCbErrorEv])
  cases hres : (uploadBlob server (env.net server) blob (msUploadOpts scopeMatch opts blob)
      st.aux).2.2 with
  | ok m =>
    rw [msUploadPhase_ok scopeMatch env opts blob st server m hres, recordSuccess_evs,
      recordSuccess_results]
    refine ⟨Δu ++ (((uploadBlob server (env.net server) blob
      (msUploadOpts scopeMatch opts blob) st.aux).2.1).filterMap (uevToEv server) ++
        (if opts.hasOnUpload = true then [Ev.cbUpload server] else [])), ?_, ?_⟩
    · show ({ (uploadBlob server (env.net server) blob (msUploadOpts scopeMatch opts blob)
          st.aux).1 with
        evs := (uploadBlob server (env.net server) blob (msUploadOpts scopeMatch opts blob)
            st.aux).1.evs ++
          ((uploadBlob server (env.net server) blob (msUploadOpts scopeMatch opts blob)
            st.aux).2.1).filterMap (uevToEv server) } : MSAux).evs ++ _ = _
      rw [hu]
      simp [List.append_assoc]
    · refine Or.inl ⟨m, rfl, ?_⟩
      rw [List.filter_append, List.filter_append, hfu, hfn]
      by_cases hou : opts.hasOnUpload = true
      · rw [if_pos hou]
        rfl
      · rw [if_neg hou]
        rfl
  | error er =>
    rw [msUploadPhase_err scopeMatch env opts blob st server er hres, if_pos hOE]
    refine ⟨Δu ++ (((uploadBlob server (env.net server) blob
      (msUploadOpts scopeMatch opts blob) st.aux).2.1).filterMap (uevToEv server) ++
        [Ev.cbError server er]), ?_, ?_⟩
    · show ((uploadBlob server (env.net server) blob (msUploadOpts scopeMatch opts blob)
          st.aux).1.evs ++
        ((uploadBlob server (env.net server) blob (msUploadOpts scopeMatch opts blob)
          st.aux).2.1).filterMap (uevToEv server)) ++ [Ev.cbError server er] = _
      rw [hu]
      simp [List.append_assoc]
    · refine Or.inr ⟨rfl, er, ?_⟩
      rw [List.filter_append, List.filter_append, hfu, hfn]
      rfl

theorem msStep_outcome (scopeMatch : SignedEvent → String → Blob → Bool) (env : MSEnv)
    (opts : MSOpts) (blob : Blob) (st : MSState) (server : String)
    (hOE : opts.hasOnError = true) :
    ∃ Δ, (msStep scopeMatch env opts blob st server).aux.evs = st.aux.evs ++ Δ ∧
      ((∃ m, (msStep scopeMatch env opts blob st server).results =
          setResult st.results server m ∧ Δ.filter isCbErrorEv = []) ∨
        ((msStep scopeMatch env opts blob st server).results = st.results ∧
          ∃ er, Δ.filter isCbErrorEv = [Ev.cbError server er])) := by
  cases hinit : st.initialUpload with
  | none =>
    rw [msStep_none scopeMatch env opts blob st server hinit]
    exact msUploadPhase_outcome scopeMatch env opts blob st server hOE
  | some d =>
    cases hm : env.mirror server d with
    | ok m =>
      rw [msStep_mirror_ok scopeMatch env opts blob st server d m hinit hm, recordSuccess_evs,
        recordSuccess_results]
      refine ⟨[Ev.mirrorCall server d opts.signal] ++
        (if opts.hasOnUpload = true then [Ev.cbUpload server] else []), ?_, ?_⟩
      · show ({ st.aux with
          evs := st.aux.evs ++ [Ev.mirrorCall server d opts.signal] } : MSAux).evs ++ _ = _
        simp [List.append_assoc]
      · refine Or.inl ⟨m, rfl, ?_⟩
        rw [List.filter_append]
        by_cases hou : opts.hasOnUpload = true
        · rw [if_pos hou]
          rfl
        · rw [if_neg hou]
          rfl
    | error er =>
      rw [msStep_mirror_err scopeMatch env opts blob st server d er hinit hm]
      rcases msUploadPhase_outcome scopeMatch env opts blob
        { st with aux := { st.aux with
          evs := st.aux.evs ++ [Ev.mirrorCall server d opts.signal] } } server hOE with
        ⟨Δ, hΔ, hout⟩
      refine ⟨Ev.mirrorCall server d opts.signal :: Δ, ?_, ?_⟩
      · rw [hΔ]
        simp
      · have hf : (Ev.mirrorCall server d opts.signal :: Δ).filter isCbErrorEv =
            Δ.filter isCbErrorEv := by
          rw [List.filter_cons]
          simp [isCbErrorEv]
        rcases hout with ⟨m, hr, hfe⟩ | ⟨hr, er2, hfe⟩
        · exact Or.inl ⟨m, hr, by rw [hf, hfe]⟩
        · exact Or.inr ⟨hr, er2, by rw [hf, hfe]⟩

theorem msStep_errCnt (scopeMatch : SignedEvent → String → Blob → Bool) (env : MSEnv)
    (opts : MSOpts) (blob : Blob) (st : MSState) (server : String)
    (hOE : opts.hasOnError = true) :
    ((∃ m, (msStep scopeMatch env opts blob st server).results =
        setResult st.results server m) ∧
      (∀ t, errCnt (msStep scopeMatch env opts blob st server) t = errCnt st t)) ∨
    ((msStep scopeMatch env opts blob st server).results = st.results ∧
      errCnt (msStep scopeMatch env opts blob st server) server = errCnt st server + 1 ∧
      (∀ t, t ≠ server →
        errCnt (msStep scopeMatch env opts blob st server) t = errCnt st t)) := by
  rcases msStep_outcome scopeMatch env opts blob st server hOE with ⟨Δ, hΔ, hout⟩
  have hcnt : ∀ t, errCnt (msStep scopeMatch env opts blob st server) t =
      errCnt st t + (Δ.filter (isCbErrorForEv t)).length := by
    intro t
    show countEv (isCbErrorForEv t) _ = _
    rw [hΔ, countEv_append]
    rfl
  rcases hout with ⟨m, hr, hfe⟩ | ⟨hr, er, hfe⟩
  · refine Or.inl ⟨⟨m, hr⟩, fun t => ?_⟩
    rw [hcnt t, filter_cbError_for, hfe]
    rfl
  · refine Or.inr ⟨hr, ?_, fun t ht => ?_⟩
    · rw [hcnt server, filter_cbError_for, hfe]
      simp [isCbErrorForEv]
    · rw [hcnt t, filter_cbError_for, hfe]
      have : (server == t) = false := beq_eq_false_iff_ne.2 (Ne.symm ht)
      simp [isCbErrorForEv, this]

/-! ### Claim C4 -/

/-- C4 counterexample: with the duplicated server list [B, A, B] where
the first upload to B fails, A succeeds, and the later mirror to B
succeeds, server B ends up both present in the returned mapping and with
its onError callback fired — refuting the claimed equivalence that a
server is absent from the mapping if and only if its failure callback
fired. -/
theorem C4_counterexample :
    (lookupResult (multiServerUpload mTrue msEnvDup
      ["https://b", "https://a", "https://b"] wBlob msOptsW).results "https://b").isSome =
      true ∧
    0 < errCnt (multiServerUpload mTrue msEnvDup
      ["https://b", "https://a", "https://b"] wBlob msOptsW) "https://b" := by
  decide

/-- C4 (amended): for every duplicate-free server list, when the onError
callback is configured, every server of the list ends up either in the
returned mapping with no onError invocation, or out of the mapping with
exactly one onError invocation (so the mapping contains exactly the
servers that succeeded and the failure callback fires exactly for the
failing ones, each processed exactly once, and one failure never stops
the loop); servers outside the list are untouched. -/
theorem C4_partial_failure (scopeMatch : SignedEvent → String → Blob → Bool) (env : MSEnv)
    (opts : MSOpts) (blob : Blob) (servers : List String) (hnd : servers.Nodup)
    (hOE : opts.hasOnError = true) :
    (∀ server ∈ servers,
      ((hasRes (multiServerUpload scopeMatch env servers blob opts) server = true) ↔
        errCnt (multiServerUpload scopeMatch env servers blob opts) server = 0) ∧
      errCnt (multiServerUpload scopeMatch env servers blob opts) server ≤ 1) ∧
    (∀ server, server ∉ servers →
      lookupResult (multiServerUpload scopeMatch env servers blob opts).results server =
        none ∧
      errCnt (multiServerUpload scopeMatch env servers blob opts) server = 0) := by
  have main : ∀ (l : List String) (st : MSState), l.Nodup →
      (∀ s ∈ l, lookupResult st.results s = none ∧ errCnt st s = 0) →
      (∀ s ∈ l,
        ((hasRes (List.foldl (msStep scopeMatch env opts blob) st l) s = true) ↔
          errCnt (List.foldl (msStep scopeMatch env opts blob) st l) s = 0) ∧
        errCnt (List.foldl (msStep scopeMatch env opts blob) st l) s ≤ 1) ∧
      (∀ s, s ∉ l →
        lookupResult (List.foldl (msStep scopeMatch env opts blob) st l).results s =
          lookupResult st.results s ∧
        errCnt (List.foldl (msStep scopeMatch env opts blob) st l) s = errCnt st s) := by
    intro l
    induction l with
    | nil =>
      intro st _ _
      exact ⟨fun s hs => absurd hs (List.not_mem_nil s), fun s _ => ⟨rfl, rfl⟩⟩
    | cons sv rest ih =>
      intro st hnd2 hfresh
      have hsvrest : sv ∉ rest := (List.nodup_cons.1 hnd2).1
      have hndrest : rest.Nodup := (List.nodup_cons.1 hnd2).2
      have hfsv : lookupResult st.results sv = none ∧ errCnt st sv = 0 :=
        hfresh sv (List.mem_cons_self sv rest)
      simp only [List.foldl_cons]
      rcases msStep_errCnt scopeMatch env opts blob st sv hOE with
        ⟨⟨m, hr⟩, hcnt⟩ | ⟨hr, hcntsv, hcnt⟩
      · -- step succeeded for sv
        have hfresh2 : ∀ s ∈ rest,
            lookupResult (msStep scopeMatch env opts blob st sv).results s = none ∧
            errCnt (msStep scopeMatch env opts blob st sv) s = 0 := by
          intro s hs
          have hne : s ≠ sv := fun heq => hsvrest (heq ▸ hs)
          rw [hr, lookupResult_setResult_other _ sv s m hne, hcnt s]
          exact hfresh s (List.mem_cons_of_mem sv hs)
        rcases ih (msStep scopeMatch env opts blob st sv) hndrest hfresh2 with ⟨ihin, ihout⟩
        constructor
        · intro s hs
          rcases List.mem_cons.1 hs with heq | hs2
          · subst heq
            rcases ihout s hsvrest with ⟨ho1, ho2⟩
            have hlook : lookupResult
                (List.foldl (msStep scopeMatch env opts blob)
                  (msStep scopeMatch env opts blob st s) rest).results s = some m := by
              rw [ho1, hr]
              exact lookupResult_setResult_self st.results s m
            have hcnt2 : errCnt (List.foldl (msStep scopeMatch env opts blob)
                (msStep scopeMatch env opts blob st s) rest) s = 0 := by
              rw [ho2, hcnt s]
              exact hfsv.2
            constructor
            · rw [hcnt2]
              unfold hasRes
              rw [hlook]
              simp
            · rw [hcnt2]
              omega
          · exact ihin s hs2
        · intro s hs
          have hnsv : s ≠ sv := fun heq => hs (heq ▸ List.mem_cons_self sv rest)
          have hnrest : s ∉ rest := fun h2 => hs (List.mem_cons_of_mem sv h2)
          rcases ihout s hnrest with ⟨ho1, ho2⟩
          refine ⟨?_, ?_⟩
          · rw [ho1, hr, lookupResult_setResult_other _ sv s m hnsv]
          · rw [ho2, hcnt s]
      · -- step failed for sv
        have hfresh2 : ∀ s ∈ rest,
            lookupResult (msStep scopeMatch env opts blob st sv).results s = none ∧
            errCnt (msStep scopeMatch env opts blob st sv) s = 0 := by
          intro s hs
          have hne : s ≠ sv := fun heq => hsvrest (heq ▸ hs)
          rw [hr, hcnt s hne]
          exact hfresh s (List.mem_cons_of_mem sv hs)
        rcases ih (msStep scopeMatch env opts blob st sv) hndrest hfresh2 with ⟨ihin, ihout⟩
        constructor
        · intro s hs
          rcases List.mem_cons.1 hs with heq | hs2
          · subst heq
            rcases ihout s hsvrest with ⟨ho1, ho2⟩
            have hlook : lookupResult
                (List.foldl (msStep scopeMatch env opts blob)
                  (msStep scopeMatch env opts blob st s) rest).results s = none := by
              rw [ho1, hr]
              exact hfsv.1
            have hcnt2 : errCnt (List.foldl (msStep scopeMatch env opts blob)
                (msStep scopeMatch env opts blob st s) rest) s = 1 := by
              rw [ho2, hcntsv, hfsv.2]
            constructor
            · rw [hcnt2]
              unfold hasRes
              rw [hlook]
              simp
            · rw [hcnt2]
          · exact ihin s hs2
        · intro s hs
          have hnsv : s ≠ sv := fun heq => hs (heq ▸ List.mem_cons_self sv rest)
          have hnrest : s ∉ rest := fun h2 => hs (List.mem_cons_of_mem sv h2)
          rcases ihout s hnrest with ⟨ho1, ho2⟩
          exact ⟨by rw [ho1, hr], by rw [ho2, hcnt s hnsv]⟩
  have base : ∀ s ∈ servers, lookupResult (msInit opts).results s = none ∧
      errCnt (msInit opts) s = 0 := fun s _ => ⟨rfl, rfl⟩
  rcases main servers (msInit opts) hnd base with ⟨h1, h2⟩
  refine ⟨h1, fun s hs => ?_⟩
  rcases h2 s hs with ⟨ha, hb⟩
  exact ⟨ha, hb⟩

/-- C4 witness: the amended theorem applied to a concrete duplicate-free
run where server B fails and server A succeeds — B is out of the mapping
with exactly one onError invocation, A is in the mapping with none, and
a server outside the list is untouched. -/
theorem C4_partial_failure_witness :
    (((hasRes (multiServerUpload mTrue msEnvDup ["https://b", "https://a"] wBlob msOptsW)
        "https://b" = true) ↔
      errCnt (multiServerUpload mTrue msEnvDup ["https://b", "https://a"] wBlob msOptsW)
        "https://b" = 0) ∧
      errCnt (multiServerUpload mTrue msEnvDup ["https://b", "https://a"] wBlob msOptsW)
        "https://b" ≤ 1) ∧
    (lookupResult (multiServerUpload mTrue msEnvDup ["https://b", "https://a"] wBlob
      msOptsW).results "https://c" = none ∧
      errCnt (multiServerUpload mTrue msEnvDup ["https://b", "https://a"] wBlob msOptsW)
        "https://c" = 0) :=
  ⟨(C4_partial_failure mTrue msEnvDup msOptsW wBlob ["https://b", "https://a"] (by decide)
      rfl).1 "https://b" (by decide),
   (C4_partial_failure mTrue msEnvDup msOptsW wBlob ["https://b", "https://a"] (by decide)
      rfl).2 "https://c" (by decide)⟩

end BlossomSpec
